import Mathlib

/-!
Verification development for the localrag topic/vector-store lifecycle manager.

The definitions below are a shallow embedding of the TypeScript sources:
  - src/managers/topicManager.ts   (topic registry, documents, folder usage tree,
                                    export/import, common database, model compatibility)
  - src/server/restServer.ts       (the GET /search handler and error responses)
  - src/utils/progressTracker.ts   (pause/resume coordination)
  - src/utils/fileWatcherService.ts (the sequential per-file batch loop)

JavaScript `Map` objects (insertion ordered, set-in-place on existing keys) are
embedded as association lists with `alist*` helpers.  File-system and
embedding-runtime effects are modelled as explicit inputs (outcome oracles) and
as emitted `Event` values, so the order of effects inside an operation is
recorded in the returned trace.
-/

set_option autoImplicit false

namespace LocalRag

/-- Lookup in an association list, mirroring JavaScript `Map.get`. -/
def alistLookup {α : Type} (m : List (String × α)) (k : String) : Option α :=
  match m with
  | [] => none
  | (k2, v) :: rest => if k2 == k then some v else alistLookup rest k

/-- JavaScript `Map.set`: update the value in place if the key is present,
    otherwise append the new binding at the end (insertion order). -/
def alistSet {α : Type} (m : List (String × α)) (k : String) (v : α) :
    List (String × α) :=
  match m with
  | [] => [(k, v)]
  | (k2, v2) :: rest =>
      if k2 == k then (k2, v) :: rest else (k2, v2) :: alistSet rest k v

/-- JavaScript `Map.delete`: remove the binding with the given key. -/
def alistErase {α : Type} (m : List (String × α)) (k : String) :
    List (String × α) :=
  match m with
  | [] => []
  | (k2, v2) :: rest =>
      if k2 == k then rest else (k2, v2) :: alistErase rest k

/-- JavaScript `Map.has`. -/
def alistHas {α : Type} (m : List (String × α)) (k : String) : Bool :=
  (alistLookup m k).isSome

/-! ## Folder Usage Tree

Embeds `FolderChunkNode` / `FolderChunkStats` and the operations
`updateFolderChunkStats`, `removeFolderChunkStats` and
`recalculateFolderTotals` from topicManager.ts.  The resolution of a file path
to a root key plus relative path segments (`getWatchFolderForPath` plus
`path.relative`/`path.normalize`) depends on the editor configuration, which is
an external boundary; the tree operations therefore take the already resolved
`rootKey`, display name and segment list as inputs. -/

/-- A node of the folder usage tree (`FolderChunkNode` in utils/types). -/
inductive FolderChunkNode : Type where
  | mk (name : String) (path : String) (isFile : Bool) (chunkCount : Nat)
      (children : List (String × FolderChunkNode)) : FolderChunkNode

def FolderChunkNode.name : FolderChunkNode → String
  | .mk n _ _ _ _ => n

def FolderChunkNode.path : FolderChunkNode → String
  | .mk _ p _ _ _ => p

def FolderChunkNode.isFile : FolderChunkNode → Bool
  | .mk _ _ f _ _ => f

def FolderChunkNode.chunkCount : FolderChunkNode → Nat
  | .mk _ _ _ c _ => c

def FolderChunkNode.children : FolderChunkNode → List (String × FolderChunkNode)
  | .mk _ _ _ _ cs => cs

/-- The sum of the (current) chunk counts of a children list. -/
def sumChildren (cs : List (String × FolderChunkNode)) : Nat :=
  (cs.map (fun kv => kv.2.chunkCount)).sum

/-- Per-topic folder statistics (`FolderChunkStats`). -/
structure FolderChunkStats : Type where
  roots : List (String × FolderChunkNode)
  totalChunks : Nat
  lastUpdated : Nat

mutual

/-- One node of `recalculateFolderTotals`: `calculateNodeTotal` returns the
    node's own `chunkCount` for file nodes (without descending) and otherwise
    overwrites `chunkCount` with the sum of the children's recomputed totals. -/
def recalcNode : FolderChunkNode → FolderChunkNode
  | .mk n p f c cs =>
      if f then .mk n p f c cs
      else
        let cs2 := recalcChildren cs
        .mk n p f (sumChildren cs2) cs2

def recalcChildren : List (String × FolderChunkNode) → List (String × FolderChunkNode)
  | [] => []
  | (k, child) :: rest => (k, recalcNode child) :: recalcChildren rest

end

/-- The full bottom-up recompute `recalculateFolderTotals`. -/
def recalculateFolderTotals (s : FolderChunkStats) : FolderChunkStats :=
  let rs := recalcChildren s.roots
  { s with roots := rs, totalChunks := sumChildren rs }

/-- Join a directory path and a segment (`path.join` on an already normalized
    directory and a single segment). -/
def pathJoinSeg (dir seg : String) : String := dir ++ "/" ++ seg

/-- The tree-building walk of `updateFolderChunkStats` (lines 975-1000):
    walk/create each path segment; the terminal segment is marked as a file
    node carrying the given chunk count. -/
def insertParts (node : FolderChunkNode) (curPath : String) (parts : List String)
    (cc : Nat) : FolderChunkNode :=
  match parts with
  | [] => node
  | [part] =>
      let childPath := pathJoinSeg curPath part
      let child :=
        match alistLookup node.children part with
        | some (.mk cn cp _ _ ccs) => FolderChunkNode.mk cn cp true cc ccs
        | none => FolderChunkNode.mk part childPath true cc []
      .mk node.name node.path node.isFile node.chunkCount
        (alistSet node.children part child)
  | part :: rest =>
      let childPath := pathJoinSeg curPath part
      let child :=
        match alistLookup node.children part with
        | some c => c
        | none => FolderChunkNode.mk part childPath false 0 []
      let child2 := insertParts child childPath rest cc
      .mk node.name node.path node.isFile node.chunkCount
        (alistSet node.children part child2)

/-- The operation `updateFolderChunkStats` on one topic's stats value.  The
    `stats` argument is the current map entry (`none` when the topic has no
    stats yet, in which case a fresh empty record is created first, exactly as
    in lines 925-933). -/
def updateFolderChunkStats (stats : Option FolderChunkStats)
    (rootKey rootDisplayName : String) (relativeParts : List String)
    (chunkCount : Nat) (now : Nat) : FolderChunkStats :=
  let s :=
    match stats with
    | some s => s
    | none => { roots := [], totalChunks := 0, lastUpdated := now }
  match relativeParts with
  | [] => s
  | _ :: _ =>
      let roots1 :=
        if alistHas s.roots rootKey then s.roots
        else alistSet s.roots rootKey
          (.mk rootDisplayName rootKey false 0 [])
      let root :=
        match alistLookup roots1 rootKey with
        | some r => r
        | none => FolderChunkNode.mk rootDisplayName rootKey false 0 []
      let root2 := insertParts root rootKey relativeParts chunkCount
      let s2 := recalculateFolderTotals
        { s with roots := alistSet roots1 rootKey root2 }
      { s2 with lastUpdated := now }

/-- The recursive removal walk of `removeFolderChunkStats`: delete the terminal
    node, then prune every ancestor that is left with no children and is not
    itself a file, stopping at the first ancestor that keeps children.
    Returns `none` when some segment is missing (the code's early return that
    leaves the stats untouched). -/
def removeParts (node : FolderChunkNode) (parts : List String) :
    Option FolderChunkNode :=
  match parts with
  | [] => none
  | [part] =>
      match alistLookup node.children part with
      | none => none
      | some _ =>
          some (.mk node.name node.path node.isFile node.chunkCount
            (alistErase node.children part))
  | part :: rest =>
      match alistLookup node.children part with
      | none => none
      | some child =>
          match removeParts child rest with
          | none => none
          | some c2 =>
              if c2.children.isEmpty && !c2.isFile then
                some (.mk node.name node.path node.isFile node.chunkCount
                  (alistErase node.children part))
              else
                some (.mk node.name node.path node.isFile node.chunkCount
                  (alistSet node.children part c2))

/-- The operation `removeFolderChunkStats` on one topic's stats value. -/
def removeFolderChunkStats (stats : Option FolderChunkStats)
    (rootKey : String) (relativeParts : List String) (now : Nat) :
    Option FolderChunkStats :=
  match stats with
  | none => none
  | some s =>
      match relativeParts with
      | [] => some s
      | _ :: _ =>
          match alistLookup s.roots rootKey with
          | none => some s
          | some root =>
              match removeParts root relativeParts with
              | none => some s
              | some root2 =>
                  let roots2 :=
                    if root2.children.isEmpty && !root2.isFile then
                      alistErase s.roots rootKey
                    else alistSet s.roots rootKey root2
                  let s2 := recalculateFolderTotals { s with roots := roots2 }
                  some { s2 with lastUpdated := now }

mutual

/-- The claimed invariant restricted to nodes reachable through non-file
    ancestors: a file node stops the recursion (its children are not visited,
    matching what `recalculateFolderTotals` guarantees); a non-file node's
    `chunkCount` must equal the sum of its children's counts. -/
def nodeOkB : FolderChunkNode → Bool
  | .mk _ _ f c cs => if f then true else (c == sumChildren cs) && childrenOkB cs

def childrenOkB : List (String × FolderChunkNode) → Bool
  | [] => true
  | (_, n) :: rest => nodeOkB n && childrenOkB rest

end

mutual

/-- The invariant exactly as the specification states it: EVERY non-file node,
    recursively, including nodes below file nodes, has `chunkCount` equal to
    the sum of its children's counts. -/
def nodeOkFullB : FolderChunkNode → Bool
  | .mk _ _ f c cs =>
      if f then childrenOkFullB cs
      else (c == sumChildren cs) && childrenOkFullB cs

def childrenOkFullB : List (String × FolderChunkNode) → Bool
  | [] => true
  | (_, n) :: rest => nodeOkFullB n && childrenOkFullB rest

end

/-- Stats-level invariant (stop-at-file version) together with the
    `totalChunks` equation. -/
def statsOkB (s : FolderChunkStats) : Bool :=
  childrenOkB s.roots && (s.totalChunks == sumChildren s.roots)

/-- Stats-level invariant exactly as claimed (full recursion below file
    nodes) together with the `totalChunks` equation. -/
def statsOkFullB (s : FolderChunkStats) : Bool :=
  childrenOkFullB s.roots && (s.totalChunks == sumChildren s.roots)


/-- Concrete call sequence: index file `x/d/f` (5 chunks), then index a
    document whose resolved relative path is just `x` (7 chunks) — turning the
    existing folder node `x` into a file node that keeps its children — then
    index `x/d/g` (3 chunks).  Used to test the tree invariant. -/
def folderStatsSeq1 : FolderChunkStats :=
  updateFolderChunkStats none "r" "r" ["x", "d", "f"] 5 0

def folderStatsSeq2 : FolderChunkStats :=
  updateFolderChunkStats (some folderStatsSeq1) "r" "r" ["x"] 7 1

def folderStatsSeq3 : FolderChunkStats :=
  updateFolderChunkStats (some folderStatsSeq2) "r" "r" ["x", "d", "g"] 3 2


/-! ## Topic registry data model

Embeds the `Topic`, `Document` and `TopicsIndex` records of utils/types and the
in-memory state owned by `TopicManager` (topicManager.ts).  The state is taken
after successful initialization: `topicsIndex` is always present, matching the
`if (!this.topicsIndex) throw` guards at the top of every operation.  Time
(`Date.now()`) and generated identifiers are explicit inputs. -/

structure Topic : Type where
  id : String
  name : String
  description : Option String
  createdAt : Nat
  updatedAt : Nat
  documentCount : Nat
  source : Option String
deriving DecidableEq

structure TopicDocument : Type where
  id : String
  topicId : String
  name : String
  filePath : String
  fileType : String
  addedAt : Nat
  chunkCount : Nat
deriving DecidableEq

structure TopicsIndex : Type where
  topics : List (String × Topic)
  modelName : String
  lastUpdated : Nat
deriving DecidableEq

/-- The in-memory state of the `TopicManager` singleton: local topics index,
    per-topic document maps, per-topic folder usage stats, the vector-store
    cache (as the set of cached topic ids), and the optional read-only common
    registry. -/
structure TMState : Type where
  topicsIndex : TopicsIndex
  topicDocuments : List (String × List (String × TopicDocument))
  folderChunkStats : List (String × FolderChunkStats)
  vectorStoreCache : List String
  commonTopicsIndex : Option TopicsIndex
  commonTopicDocuments : List (String × List (String × TopicDocument))
  commonDatabasePath : Option String

/-- Observable side effects of an operation, in the order they are performed.
    Persistence calls and calls out of the manager are recorded as events. -/
inductive Event : Type where
  | metadataRemoved (docId : String)
  | vectorDeleteAttempted (ok : Bool)
  | topicsIndexSaved
  | topicDocumentsSaved (topicId : String)
  | folderUsageUpdated (topicId : String)
  | vectorStoreDataDeleted (topicId : String)
  | documentsFileDeleted (topicId : String)
  | agentCacheCleanup (topicId : String)
deriving DecidableEq

/-- JavaScript string truthiness: the empty string is falsy. -/
def strTruthy (s : String) : Bool := !(s == "")

/-- Truthiness of an optional string parameter (missing or empty is falsy). -/
def optStrTruthy : Option String → Bool
  | none => false
  | some s => strTruthy s

/-- JavaScript `toLowerCase()` on ASCII, defined on the character data so that
    it evaluates inside the kernel. -/
def strLower (s : String) : String := ⟨s.data.map Char.toLower⟩

/-- Split a character list on a separator character. -/
def splitChar (c : Char) : List Char → List (List Char)
  | [] => [[]]
  | x :: xs =>
      match splitChar c xs with
      | [] => [[]]
      | hd :: tl => if x == c then [] :: hd :: tl else (x :: hd) :: tl

/-- Split a string on a separator character (the `split` of the path
    helpers, defined on the character data so that it evaluates inside the
    kernel). -/
def splitString (c : Char) (s : String) : List String :=
  (splitChar c s.data).map (fun l => ⟨l⟩)

/-- POSIX basename: the last path segment. -/
def pathBasename (p : String) : String :=
  match (splitString '/' p).reverse with
  | [] => p
  | seg :: _ => seg

/-- The extension of the basename without the leading dot
    (`path.extname(filePath).substring(1)`). -/
def extAfterDot (p : String) : String :=
  match splitString '.' (pathBasename p) with
  | [] => ""
  | [_] => ""
  | segs => segs.getLastD ""

/-- The `mapFileType` helper of topicManager.ts. -/
def mapFileType (extension : String) : String :=
  match strLower extension with
  | "pdf" => "pdf"
  | "md" => "markdown"
  | "markdown" => "markdown"
  | "html" => "html"
  | "htm" => "html"
  | _ => "markdown"

/-- POSIX `path.normalize`: drops empty and `.` segments and resolves `..`
    against preceding segments. -/
def posixNormalize (p : String) : String :=
  let abs := match p.data with
    | [] => false
    | ch :: _ => ch == '/'
  let segs := splitString '/' p
  let step : List String → String → List String := fun stack seg =>
    if seg == "" || seg == "." then stack
    else if seg == ".." then
      match stack with
      | [] => if abs then [] else [".."]
      | top :: rest => if top == ".." then seg :: stack else rest
    else seg :: stack
  let stack := segs.foldl step []
  let body := String.intercalate "/" stack.reverse
  if abs then "/" ++ body else if body == "" then "." else body

/-- The result of resolving a file path against the configured watch folders
    (`getWatchFolderForPath` plus the relative-segment computation in
    `updateFolderChunkStats`/`removeFolderChunkStats`): a root key, the root
    display name, and the relative path segments.  The resolution reads the
    editor configuration, an external boundary, so it is an input here. -/
structure ResolvedPath : Type where
  rootKey : String
  rootDisplayName : String
  relativeParts : List String

/-- One file of an `addDocuments` batch together with the outcome of the
    ingestion-pipeline boundary call for it (`some chunksStored` on success,
    `none` on failure) and the document id the generator produces for it. -/
structure IngestJob : Type where
  filePath : String
  result : Option Nat
  docId : String

/-- Exact-match lookup of a document by its `filePath` field, mirroring the
    `for (const doc of documents.values())` loop with
    `doc.filePath === filePath` in `removeDocumentByFilePath`. -/
def findDocumentByFilePath (docs : List (String × TopicDocument))
    (filePath : String) : Option TopicDocument :=
  match docs with
  | [] => none
  | (_, d) :: rest =>
      if d.filePath == filePath then some d
      else findDocumentByFilePath rest filePath

/-! ## Topic operations -/

/-- Create a topic (`createTopic`): case-insensitive duplicate check against
    the LOCAL topics only, then insertion with `documentCount = 0` and a fresh
    document map.  Ingestion of `initialDocuments` is performed by a separate
    `addDocuments` call in the source and is composed by callers here. -/
def createTopic (s : TMState) (name : String) (description : Option String)
    (newId : String) (now : Nat) : Except String (Topic × TMState) :=
  if s.topicsIndex.topics.any (fun kv => strLower kv.2.name == strLower name) then
    .error ("Topic with name \"" ++ name ++ "\" already exists")
  else
    let topic : Topic :=
      { id := newId, name := name, description := description,
        createdAt := now, updatedAt := now, documentCount := 0, source := none }
    .ok (topic,
      { s with
          topicsIndex :=
            { s.topicsIndex with
                topics := alistSet s.topicsIndex.topics newId topic,
                lastUpdated := now },
          topicDocuments := alistSet s.topicDocuments newId [] })

/-- Update topic metadata (`updateTopic`): local lookup, conditional
    case-insensitive rename-conflict check against other local topics, then
    field updates (a falsy name is ignored; an explicitly provided description
    is applied even when empty). -/
def updateTopic (s : TMState) (tid : String) (newName : Option String)
    (newDescription : Option (Option String)) (now : Nat) :
    Except String (Topic × TMState) :=
  match alistLookup s.topicsIndex.topics tid with
  | none => .error ("Topic not found: " ++ tid)
  | some topic =>
      let renameRequested :=
        match newName with
        | some n => strTruthy n && !(n == topic.name)
        | none => false
      if renameRequested &&
          s.topicsIndex.topics.any (fun kv =>
            !(kv.2.id == tid) &&
              strLower kv.2.name == strLower (newName.getD "")) then
        .error ("Topic with name \"" ++ newName.getD "" ++ "\" already exists")
      else
        let name2 :=
          match newName with
          | some n => if strTruthy n then n else topic.name
          | none => topic.name
        let desc2 :=
          match newDescription with
          | some d => d
          | none => topic.description
        let topic2 :=
          { topic with name := name2, description := desc2, updatedAt := now }
        .ok (topic2,
          { s with
              topicsIndex :=
                { s.topicsIndex with
                    topics := alistSet s.topicsIndex.topics tid topic2,
                    lastUpdated := now } })

/-- The per-file loop body of `addDocuments`: a failed pipeline result is
    logged and skipped; a successful one records the document metadata and
    then updates the folder usage tree. -/
def addDocumentsStep (resolve : String → ResolvedPath) (tid : String) (now : Nat)
    (acc : List (String × List (String × TopicDocument)) ×
      List (String × FolderChunkStats)) (job : IngestJob) :
    List (String × List (String × TopicDocument)) ×
      List (String × FolderChunkStats) :=
  match job.result with
  | none => acc
  | some chunksStored =>
      let tds := acc.1
      let fcs := acc.2
      let doc : TopicDocument :=
        { id := job.docId, topicId := tid, name := pathBasename job.filePath,
          filePath := job.filePath,
          fileType := mapFileType (extAfterDot job.filePath),
          addedAt := now, chunkCount := chunksStored }
      let cur := (alistLookup tds tid).getD []
      let tds2 := alistSet tds tid (alistSet cur job.docId doc)
      let r := resolve job.filePath
      let fcs2 := alistSet fcs tid
        (updateFolderChunkStats (alistLookup fcs tid) r.rootKey
          r.rootDisplayName r.relativeParts chunksStored now)
      (tds2, fcs2)

/-- Add a batch of documents to a topic (`addDocuments`): local lookup, the
    per-file loop (failures are swallowed), then a single recomputation of
    `documentCount` from the document map followed by one persistence of the
    index and the document metadata. -/
def addDocuments (s : TMState) (tid : String) (jobs : List IngestJob)
    (resolve : String → ResolvedPath) (now : Nat) : Except String TMState :=
  match alistLookup s.topicsIndex.topics tid with
  | none => .error ("Topic not found: " ++ tid)
  | some topic =>
      let acc2 := jobs.foldl (addDocumentsStep resolve tid now)
        (s.topicDocuments, s.folderChunkStats)
      let cnt := ((alistLookup acc2.1 tid).getD []).length
      let topic2 := { topic with documentCount := cnt, updatedAt := now }
      .ok { s with
          topicsIndex :=
            { s.topicsIndex with
                topics := alistSet s.topicsIndex.topics tid topic2,
                lastUpdated := now },
          topicDocuments := acc2.1,
          folderChunkStats := acc2.2 }

/-- Outcome of the vector-store interaction inside `removeDocumentByFilePath`:
    the `getVectorStore` call may throw (its exception escapes the inner
    try/catch), return `null`, or return a store whose filtered delete either
    succeeds or fails (the failure being caught and logged). -/
inductive VSOutcome : Type where
  | getThrew (e : String)
  | noStore
  | store (deleteOk : Bool)
deriving DecidableEq

/-- Result of `removeDocumentByFilePath`: the boolean of the source, or a
    propagated exception. -/
inductive RemoveResult : Type where
  | threw (e : String)
  | completed (found : Bool)
deriving DecidableEq

/-- The tail of `removeDocumentByFilePath` after the vector-store section:
    recompute `documentCount` from the map, persist index and documents, and
    update the folder usage stats. -/
def removeDocumentFinish (s : TMState) (topic : Topic) (tid filePath : String)
    (docs2 : List (String × TopicDocument)) (resolve : String → ResolvedPath)
    (now : Nat) (evs : List Event) : RemoveResult × TMState × List Event :=
  let topic2 := { topic with documentCount := docs2.length, updatedAt := now }
  let r := resolve filePath
  let fcs2 :=
    match removeFolderChunkStats (alistLookup s.folderChunkStats tid)
        r.rootKey r.relativeParts now with
    | none => s.folderChunkStats
    | some st => alistSet s.folderChunkStats tid st
  (.completed true,
    { s with
        topicsIndex :=
          { s.topicsIndex with
              topics := alistSet s.topicsIndex.topics tid topic2,
              lastUpdated := now },
        folderChunkStats := fcs2 },
    evs ++ [.topicsIndexSaved, .topicDocumentsSaved tid, .folderUsageUpdated tid])

/-- Remove a document by file path (`removeDocumentByFilePath`).  The document
    is located by EXACT equality on the stored `filePath`; the metadata is
    removed from the in-memory map first; then the vector store is obtained
    (an exception here escapes after the metadata removal) and the filtered
    chunk delete is attempted, its failure being non-fatal; finally the count
    is recomputed, the index and documents are persisted, and the folder usage
    stats are updated. -/
def removeDocumentByFilePath (s : TMState) (tid filePath : String)
    (vs : VSOutcome) (resolve : String → ResolvedPath) (now : Nat) :
    RemoveResult × TMState × List Event :=
  match alistLookup s.topicsIndex.topics tid with
  | none => (.threw ("Topic not found: " ++ tid), s, [])
  | some topic =>
      match alistLookup s.topicDocuments tid with
      | none => (.completed false, s, [])
      | some docs =>
          match findDocumentByFilePath docs filePath with
          | none => (.completed false, s, [])
          | some doc =>
              let docs2 := alistErase docs doc.id
              let s1 :=
                { s with topicDocuments := alistSet s.topicDocuments tid docs2 }
              match vs with
              | .getThrew e => (.threw e, s1, [.metadataRemoved doc.id])
              | .noStore =>
                  removeDocumentFinish s1 topic tid filePath docs2 resolve now
                    [.metadataRemoved doc.id]
              | .store ok =>
                  removeDocumentFinish s1 topic tid filePath docs2 resolve now
                    [.metadataRemoved doc.id, .vectorDeleteAttempted ok]

/-- Delete only a topic's vector store (`deleteTopicVectorStore`): local
    existence check, delete the store data, drop the cache entry, clear the
    folder usage stats, notify the registered agent-cache cleanup callback. -/
def deleteTopicVectorStore (s : TMState) (tid : String) :
    Except String TMState × List Event :=
  match alistLookup s.topicsIndex.topics tid with
  | none => (.error ("Topic not found: " ++ tid), [])
  | some _ =>
      (.ok { s with
          vectorStoreCache := s.vectorStoreCache.erase tid,
          folderChunkStats := alistErase s.folderChunkStats tid },
        [.vectorStoreDataDeleted tid, .agentCacheCleanup tid])

/-- Delete a topic (`deleteTopic`): local existence check, delete the store
    data, drop cache and document-map entries, unlink the document metadata
    file, remove the topic from the index, persist, and notify the cleanup
    callback.  The folder usage stats entry is NOT touched. -/
def deleteTopic (s : TMState) (tid : String) (now : Nat) :
    Except String TMState × List Event :=
  match alistLookup s.topicsIndex.topics tid with
  | none => (.error ("Topic not found: " ++ tid), [])
  | some _ =>
      (.ok { s with
          vectorStoreCache := s.vectorStoreCache.erase tid,
          topicDocuments := alistErase s.topicDocuments tid,
          topicsIndex :=
            { s.topicsIndex with
                topics := alistErase s.topicsIndex.topics tid,
                lastUpdated := now } },
        [.vectorStoreDataDeleted tid, .documentsFileDeleted tid,
          .topicsIndexSaved, .agentCacheCleanup tid])


/-! ## Embedding model compatibility -/

/-- The per-topic vector-store metadata file content that matters here. -/
structure StoreMetadata : Type where
  embeddingModel : Option String
deriving DecidableEq

/-- One entry of `embeddingService.listAvailableModels()`. -/
structure AvailableModel : Type where
  name : String
  downloaded : Bool
  source : String
deriving DecidableEq

/-- The error message built by `ensureEmbeddingModelCompatibility`. -/
def mismatchMessage (topicName storedModel currentModel : String) : String :=
  "Topic \"" ++ topicName ++ "\" was indexed with embedding model \"" ++
    storedModel ++ "\", but the current setting is \"" ++ currentModel ++
    "\". The model \"" ++ storedModel ++
    "\" is not currently available/downloaded. Please switch back to \"" ++
    storedModel ++ "\" in settings to download it, or recreate the topic."

/-- The compatibility gate `ensureEmbeddingModelCompatibility`: no stored
    model means nothing to check; a stored model equal to the active one is
    fine; a different stored model is accepted only when it is available
    (downloaded, or a local model); otherwise the operation fails with a
    message naming both models.  `topicName` is the local topic's name, with
    the topic id as fallback, exactly as in the source. -/
def ensureEmbeddingModelCompatibility (metadata : Option StoreMetadata)
    (currentModel : String) (availableModels : List AvailableModel)
    (topicName : String) : Except String Unit :=
  match metadata with
  | none => .ok ()
  | some md =>
      match md.embeddingModel with
      | none => .ok ()
      | some storedModel =>
          if storedModel == currentModel then .ok ()
          else if availableModels.any (fun m =>
              m.name == storedModel && (m.downloaded || m.source == "local")) then
            .ok ()
          else .error (mismatchMessage topicName storedModel currentModel)

/-- The model-compatibility behaviour of `getVectorStore`: the compatibility
    gate runs BEFORE the cache lookup; afterwards the cached handle is
    returned or the store is loaded from disk (cache hit and load success are
    oracles; the returned Bool says whether a store was obtained). -/
def getVectorStoreChecked (metadata : Option StoreMetadata)
    (currentModel : String) (availableModels : List AvailableModel)
    (topicName : String) (cached loadOk : Bool) : Except String Bool :=
  match ensureEmbeddingModelCompatibility metadata currentModel availableModels
      topicName with
  | .error e => .error e
  | .ok _ => .ok (cached || loadOk)

/-! ## Common database loading -/

/-- Load the optional read-only common registry (`loadCommonDatabase`).
    File-system outcomes are oracles: `pathAccessible` models `fs.access` on
    the configured path, `indexFileExists` models `fs.access` on its
    topics.json, `parseOk` models `readFile` plus `JSON.parse` succeeding with
    `parsedIndex`, and `docsOnDisk` models the per-topic document metadata
    files (a missing or unreadable file yields an empty map).  On any
    case-insensitive name conflict with a local topic the load aborts as a
    whole and all three common-state fields are reset. -/
def loadCommonDatabase (s : TMState) (commonPath : Option String)
    (pathAccessible indexFileExists parseOk : Bool) (parsedIndex : TopicsIndex)
    (docsOnDisk : String → Option (List (String × TopicDocument))) : TMState :=
  match commonPath with
  | none =>
      { s with
          commonTopicsIndex := none
          commonTopicDocuments := []
          commonDatabasePath := none }
  | some cp =>
      if !pathAccessible then
        { s with
            commonTopicsIndex := none
            commonTopicDocuments := []
            commonDatabasePath := none }
      else if !indexFileExists then
        { s with
            commonTopicsIndex := none
            commonTopicDocuments := []
            commonDatabasePath := some cp }
      else if !parseOk then
        { s with
            commonTopicsIndex := none
            commonTopicDocuments := []
            commonDatabasePath := none }
      else
        let localNamesLower :=
          s.topicsIndex.topics.map (fun kv => strLower kv.2.name)
        let conflicts := parsedIndex.topics.filter (fun kv =>
          localNamesLower.contains (strLower kv.2.name))
        if !conflicts.isEmpty then
          { s with
              commonTopicsIndex := none
              commonTopicDocuments := []
              commonDatabasePath := none }
        else
          { s with
              commonTopicsIndex := some parsedIndex,
              commonTopicDocuments := parsedIndex.topics.map (fun kv =>
                (kv.1, (docsOnDisk kv.1).getD [])),
              commonDatabasePath := some cp }

/-- Whether a topic id belongs to the common registry (`isCommonTopic`). -/
def isCommonTopic (s : TMState) (tid : String) : Bool :=
  match s.commonTopicsIndex with
  | none => false
  | some ci => alistHas ci.topics tid

/-! ## Export and import -/

/-- The `topic.json` payload of an export archive (`ExportedTopicData`). -/
structure ExportedTopicData : Type where
  version : String
  topic : Topic
  documents : List TopicDocument
  embeddingModel : String
  exportedAt : Nat
deriving DecidableEq

def EXPORT_FORMAT_VERSION : String := "1.0"

/-- The document list of a topic (`getTopicDocuments`): local map first, then
    the common map, else empty. -/
def getTopicDocumentsList (s : TMState) (tid : String) : List TopicDocument :=
  match alistLookup s.topicDocuments tid with
  | some docs => docs.map (fun kv => kv.2)
  | none =>
      match alistLookup s.commonTopicDocuments tid with
      | some docs => docs.map (fun kv => kv.2)
      | none => []

/-- Export a topic (`exportTopic`): common topics are rejected, the topic must
    exist locally, and the archive metadata entry is the `ExportedTopicData`
    built from the topic, its documents and the index model name.  The
    vector-store files that accompany it in the archive are a file-system
    boundary and are not modelled. -/
def exportTopic (s : TMState) (tid : String) (now : Nat) :
    Except String ExportedTopicData :=
  if isCommonTopic s tid then
    .error "Cannot export topics from common database"
  else
    match alistLookup s.topicsIndex.topics tid with
    | none => .error ("Topic not found: " ++ tid)
    | some topic =>
        .ok { version := EXPORT_FORMAT_VERSION, topic := topic,
              documents := getTopicDocumentsList s tid,
              embeddingModel := s.topicsIndex.modelName, exportedAt := now }

/-- Import a topic from a parsed archive payload (`importTopic`, after the
    `topic.json` entry has been found and parsed — a missing entry throws
    before any of this runs).  A fresh topic id is assigned, the name gets the
    " (imported)" suffix when it collides case-insensitively with an existing
    local topic, and every document is remapped to a generated id and the new
    topic id.  The vector-store file extraction is a file-system boundary. -/
def importTopic (s : TMState) (data : ExportedTopicData) (newId : String)
    (docIdGen : Nat → String) (now : Nat) : Topic × TMState :=
  let base : Topic :=
    { data.topic with
        id := newId
        createdAt := now
        updatedAt := now
        source := some "local" }
  let collide := s.topicsIndex.topics.any (fun kv =>
    strLower kv.2.name == strLower base.name)
  let newTopic :=
    if collide then { base with name := base.name ++ " (imported)" } else base
  let newDocuments := data.documents.enum.map (fun p =>
    { p.2 with id := docIdGen p.1, topicId := newId })
  let documentsMap := newDocuments.foldl (fun m d => alistSet m d.id d) []
  (newTopic,
    { s with
        topicsIndex :=
          { s.topicsIndex with
              topics := alistSet s.topicsIndex.topics newId newTopic,
              lastUpdated := now },
        topicDocuments := alistSet s.topicDocuments newId documentsMap })

/-! ## Progress tracker: pause, resume, waitIfPaused

Embeds the pause coordination of utils/progressTracker.ts.  The per-topic
resolver queues hold suspended continuations; here each queue is represented
by the number of parked resolvers, and the suspended batch continuation is
carried explicitly by the batch machine below. -/

structure TrackerState : Type where
  isPaused : Bool
  pauseResolvers : List (String × Nat)
deriving DecidableEq

/-- The idempotent global `pause()`. -/
def pause (t : TrackerState) : TrackerState :=
  if t.isPaused then t else { t with isPaused := true }

/-- The global `resume()`: clears the flag, resolves every queued resolver and
    clears every queue. -/
def resume (t : TrackerState) : TrackerState :=
  if !t.isPaused then t
  else { t with isPaused := false, pauseResolvers := [] }

def togglePause (t : TrackerState) : TrackerState :=
  if t.isPaused then resume t else pause t

inductive WaitResult : Type where
  | immediate
  | suspended
deriving DecidableEq

/-- The checkpoint `waitIfPaused(topicId)`: returns immediately when not
    paused; otherwise the caller is parked on the topic's resolver queue. -/
def waitIfPaused (t : TrackerState) (topicId : String) :
    WaitResult × TrackerState :=
  if !t.isPaused then (.immediate, t)
  else
    let q := (alistLookup t.pauseResolvers topicId).getD 0
    (.suspended,
      { t with pauseResolvers := alistSet t.pauseResolvers topicId (q + 1) })

/-! ## Batch processing with per-file pause checkpoints

Embeds the sequential per-file loops of `processQueuedChanges` and
`seedDefaultTopicFromExistingFiles` (fileWatcherService.ts): before each file
the loop awaits `waitIfPaused`; when that suspends, the continuation (the
remaining files) sits in the resolver queue until `resume()` releases it.
External `pause()`/`resume()` calls interleave at await points. -/

structure BatchState : Type where
  tracker : TrackerState
  running : Option (List String)
  parked : Option (List String)
  processed : List String
deriving DecidableEq

/-- One step of the batch loop itself at a file checkpoint: process the next
    file when `waitIfPaused` returns immediately, otherwise park the
    continuation in the resolver queue. -/
def batchLoopStep (topicId : String) (s : BatchState) : BatchState :=
  match s.running with
  | none => s
  | some [] => { s with running := none }
  | some (f :: rest) =>
      match waitIfPaused s.tracker topicId with
      | (.immediate, t2) =>
          { s with
              tracker := t2
              processed := s.processed ++ [f]
              running := some rest }
      | (.suspended, t2) =>
          { s with tracker := t2, running := none, parked := some (f :: rest) }

/-- Interleaving semantics: the loop acts at its checkpoints, and the
    environment may call `pause()` or `resume()` at any await point; a resume
    releases the parked continuation (its resolver is called). -/
inductive BatchStep (topicId : String) : BatchState → BatchState → Prop where
  | loop (s : BatchState) : BatchStep topicId s (batchLoopStep topicId s)
  | extPause (s : BatchState) :
      BatchStep topicId s { s with tracker := pause s.tracker }
  | extResume (s : BatchState) :
      BatchStep topicId s
        { s with
            tracker := resume s.tracker
            running := match s.parked with
              | some l => some l
              | none => s.running
            parked := none }

/-- Reachability by any interleaving of loop and pause/resume steps. -/
def BatchReaches (topicId : String) : BatchState → BatchState → Prop :=
  Relation.ReflTransGen (BatchStep topicId)

/-- The initial state of a batch over a list of (distinct) files. -/
def batchInit (t0 : TrackerState) (files : List String) : BatchState :=
  { tracker := t0, running := some files, parked := none, processed := [] }

/-- Files not yet processed: the running or parked continuation's list. -/
def batchPending (s : BatchState) : List String :=
  (s.running.getD []) ++ (s.parked.getD [])

/-! ## REST search handler

Embeds `handleSearch` of restServer.ts.  The collaborating services are
oracles in `SearchEnv`; the response carries the HTTP status, the JSON body
shape, and (as an observation) the embedding model that is active at the time
the retrieval would run. -/

structure QueryData : Type where
  totalResults : Nat
  strategy : String
deriving DecidableEq

inductive HttpBody : Type where
  | errorBody (message : String)
  | searchBody (query : String) (data : QueryData)
deriving DecidableEq

def HttpBody.isError : HttpBody → Bool
  | .errorBody _ => true
  | .searchBody _ _ => false

/-- Outcome of `topicManager.getVectorStore` as seen by the handler. -/
inductive VSGet : Type where
  | threw (e : String)
  | nullStore
  | okStore
deriving DecidableEq

structure SearchEnv : Type where
  managerInit : Bool
  topics : List Topic
  statsModel : String → Option String
  currentModel : String
  switchOk : String → Bool
  switchErr : String → String
  agentCached : String → Bool
  vectorStore : String → VSGet
  agentInitOutcome : Except String Unit
  queryOutcome : Except String QueryData

structure SearchOut : Type where
  status : Nat
  body : HttpBody
  activeModel : String

/-- The model-switch failure message of `handleSearch`. -/
def switchFailMessage (topicName storedModel currentModel err : String) :
    String :=
  "Topic \"" ++ topicName ++ "\" was indexed with embedding model \"" ++
    storedModel ++ "\", but the current setting is \"" ++ currentModel ++
    "\". Failed to switch models: " ++ err

/-- Case-insensitive topic resolution by name. -/
def findTopicByName (topics : List Topic) (n : String) : Option Topic :=
  topics.find? (fun t => strLower t.name == strLower n)

/-- The retrieval tail of the handler: run the query; errors become a 500
    with the "Search failed" wrapper. -/
def handleSearchQueryPhase (env : SearchEnv) (q : String) (activeModel : String) :
    SearchOut :=
  match env.queryOutcome with
  | .error e =>
      { status := 500, body := .errorBody ("Search failed: " ++ e),
        activeModel := activeModel }
  | .ok d =>
      { status := 200, body := .searchBody q d, activeModel := activeModel }

/-- The agent phase: reuse the cached agent unless the cache was just cleared
    by a model switch; otherwise obtain the vector store (a `null` store is a
    500, an exception is a wrapped 500) and initialize a fresh agent. -/
def handleSearchAgentPhase (env : SearchEnv) (q : String) (target : Topic)
    (activeModel : String) (cacheCleared : Bool) : SearchOut :=
  let cachedAgent := if cacheCleared then false else env.agentCached target.id
  if cachedAgent then handleSearchQueryPhase env q activeModel
  else
    match env.vectorStore target.id with
    | .threw e =>
        { status := 500, body := .errorBody ("Search failed: " ++ e),
          activeModel := activeModel }
    | .nullStore =>
        { status := 500, body := .errorBody "Vector store not available for topic",
          activeModel := activeModel }
    | .okStore =>
        match env.agentInitOutcome with
        | .error e =>
            { status := 500, body := .errorBody ("Search failed: " ++ e),
              activeModel := activeModel }
        | .ok _ => handleSearchQueryPhase env q activeModel

/-- The model phase: compare the topic's stored embedding model against the
    active one; on mismatch try to hot-switch to the topic's model (clearing
    the agent cache); a switch failure is a 500 naming both models. -/
def handleSearchModelPhase (env : SearchEnv) (q : String) (target : Topic) :
    SearchOut :=
  match env.statsModel target.id with
  | some m =>
      if m == env.currentModel then
        handleSearchAgentPhase env q target env.currentModel false
      else if env.switchOk m then
        handleSearchAgentPhase env q target m true
      else
        { status := 500,
          body := .errorBody
            (switchFailMessage target.name m env.currentModel (env.switchErr m)),
          activeModel := env.currentModel }
  | none => handleSearchAgentPhase env q target env.currentModel false

/-- The GET /search handler (`handleSearch`): parameter validation, service
    readiness, topic resolution, model phase, agent phase, query phase.  All
    error paths go through `sendError`, which pairs a non-2xx status with a
    JSON body of shape error-message-string. -/
def handleSearch (env : SearchEnv) (q topicName : Option String) : SearchOut :=
  if !optStrTruthy q then
    { status := 400, body := .errorBody "Missing required parameter: q",
      activeModel := env.currentModel }
  else if !env.managerInit then
    { status := 503, body := .errorBody "Topic manager not initialized",
      activeModel := env.currentModel }
  else
    let qs := q.getD ""
    if optStrTruthy topicName then
      match findTopicByName env.topics (topicName.getD "") with
      | none =>
          { status := 404,
            body := .errorBody ("Topic not found: " ++ topicName.getD ""),
            activeModel := env.currentModel }
      | some t => handleSearchModelPhase env qs t
    else
      match env.topics.head? with
      | none =>
          { status := 404, body := .errorBody "No topics available",
            activeModel := env.currentModel }
      | some t => handleSearchModelPhase env qs t

/-- Substring containment, used to state that an error message names a model
    identifier. -/
def ContainsSub (s sub : String) : Prop := exists a b, s = a ++ sub ++ b


/-! ## Operations sequences and the documentCount invariant -/

/-- One mutating call of the C2 claim, with its oracles. -/
inductive TMOp : Type where
  | add (tid : String) (jobs : List IngestJob)
      (resolve : String → ResolvedPath) (now : Nat)
  | remove (tid filePath : String) (vs : VSOutcome)
      (resolve : String → ResolvedPath) (now : Nat)

/-- The state after a call (a call that throws leaves whatever in-memory
    mutations it performed before the exception). -/
def applyTMOp (s : TMState) : TMOp → TMState
  | .add tid jobs resolve now =>
      match addDocuments s tid jobs resolve now with
      | .ok s2 => s2
      | .error _ => s
  | .remove tid fp vs resolve now =>
      (removeDocumentByFilePath s tid fp vs resolve now).2.1

/-- A call is benign when it cannot abort between its in-memory metadata
    mutation and the recomputation of `documentCount`: every `add` is benign,
    and a `remove` is benign unless its `getVectorStore` call throws. -/
def opBenign : TMOp → Bool
  | .add _ _ _ _ => true
  | .remove _ _ vs _ _ =>
      match vs with
      | .getThrew _ => false
      | .noStore => true
      | .store _ => true

/-- The C2 invariant: for every topic reachable in the local index, its
    `documentCount` equals the number of documents registered for it. -/
def docInv (s : TMState) : Prop :=
  ∀ tid t, alistLookup s.topicsIndex.topics tid = some t →
    t.documentCount = ((alistLookup s.topicDocuments tid).getD []).length

/-- Executable form of the C2 invariant. -/
def docInvB (s : TMState) : Bool :=
  s.topicsIndex.topics.all (fun kv =>
    match alistLookup s.topicsIndex.topics kv.1 with
    | some t =>
        t.documentCount ==
          ((alistLookup s.topicDocuments kv.1).getD []).length
    | none => true)


/-! ## Concrete states for witnesses and counterexamples -/

/-- A constant path resolution: one watch folder `w`, files directly in it. -/
def resolveConst : String → ResolvedPath := fun p =>
  { rootKey := "w", rootDisplayName := "w", relativeParts := [pathBasename p] }

def topicT1 : Topic :=
  { id := "t1", name := "Docs", description := none, createdAt := 0,
    updatedAt := 0, documentCount := 1, source := none }

def topicC1 : Topic :=
  { id := "c1", name := "docs", description := none, createdAt := 0,
    updatedAt := 0, documentCount := 0, source := none }

def docD1 : TopicDocument :=
  { id := "d1", topicId := "t1", name := "a.md", filePath := "a.md",
    fileType := "markdown", addedAt := 0, chunkCount := 10 }

/-- A small consistent state: one local topic with one registered document. -/
def stateS0 : TMState where
  topicsIndex := { topics := [("t1", topicT1)], modelName := "m1", lastUpdated := 0 }
  topicDocuments := [("t1", [("d1", docD1)])]
  folderChunkStats := []
  vectorStoreCache := ["t1"]
  commonTopicsIndex := none
  commonTopicDocuments := []
  commonDatabasePath := none


/-- A concrete search environment: one topic indexed under model m1 while m2
    is active, with a switch that succeeds. -/
def envW : SearchEnv where
  managerInit := true
  topics := [topicT1]
  statsModel := fun _ => some "m1"
  currentModel := "m2"
  switchOk := fun _ => true
  switchErr := fun _ => "no network"
  agentCached := fun _ => false
  vectorStore := fun _ => .okStore
  agentInitOutcome := .ok ()
  queryOutcome := .ok { totalResults := 0, strategy := "hybrid" }


/-- The export payload of topic t1 of `stateS0` at time 7. -/
def exportedDocs0 : ExportedTopicData :=
  { version := "1.0", topic := topicT1, documents := [docD1],
    embeddingModel := "m1", exportedAt := 7 }


/-- A document stored under the nested path a/b.md, for the C6 states. -/
def docD2 : TopicDocument :=
  { id := "d9", topicId := "t1", name := "b.md", filePath := "a/b.md",
    fileType := "markdown", addedAt := 0, chunkCount := 3 }

/-- A state containing the nested-path document. -/
def stateNested : TMState where
  topicsIndex := { topics := [("t1", topicT1)], modelName := "m1", lastUpdated := 0 }
  topicDocuments := [("t1", [("d9", docD2)])]
  folderChunkStats := []
  vectorStoreCache := []
  commonTopicsIndex := none
  commonTopicDocuments := []
  commonDatabasePath := none


/-- The response shape of the claim: a 200 carries a search body, every error
    is one of the documented codes with an error-string body. -/
def validStatus (o : SearchOut) : Prop :=
  (o.status = 200 ∧ o.body.isError = false) ∨
  ((o.status = 400 ∨ o.status = 404 ∨ o.status = 500 ∨ o.status = 503) ∧
    o.body.isError = true)


/-- State `stateS0` with folder-usage stats recorded for topic t1. -/
def stateFS : TMState :=
  { stateS0 with folderChunkStats := [("t1", folderStatsSeq1)] }


/-- The batch-machine invariant: processed plus pending files form exactly the
    input batch, and at most one of the running/parked continuations exists. -/
def batchInv (files : List String) (s : BatchState) : Prop :=
  s.processed ++ batchPending s = files ∧ (s.running = none ∨ s.parked = none)


/-- The common (read-only) registry state is untouched. -/
def commonUnchanged (s s2 : TMState) : Prop :=
  s2.commonTopicsIndex = s.commonTopicsIndex ∧
  s2.commonTopicDocuments = s.commonTopicDocuments ∧
  s2.commonDatabasePath = s.commonDatabasePath


/-- A common-registry topic whose name collides with no local topic. -/
def topicC2 : Topic :=
  { id := "c1", name := "Shared", description := none, createdAt := 0,
    updatedAt := 0, documentCount := 0, source := none }

/-- State `stateS0` with a mounted common registry holding topic c1 ("Shared"). -/
def stateCommon : TMState :=
  { stateS0 with
      commonTopicsIndex := some { topics := [("c1", topicC2)], modelName := "m1", lastUpdated := 0 }
      commonTopicDocuments := [("c1", [])]
      commonDatabasePath := some "/common" }

/-! ## Theorems and supporting lemmas -/

theorem alistLookup_set_self {α : Type} (m : List (String × α)) (k : String) (v : α) :
    alistLookup (alistSet m k v) k = some v := by
  induction m with
  | nil => simp [alistSet, alistLookup]
  | cons hd tl ih =>
      obtain ⟨k2, v2⟩ := hd
      simp only [alistSet, alistLookup, beq_iff_eq]
      by_cases h : k2 = k
      · simp [alistLookup, h]
      · simp [alistLookup, h, ih]

theorem alistLookup_set_other {α : Type} (m : List (String × α)) (k k2 : String) (v : α)
    (h : k ≠ k2) : alistLookup (alistSet m k v) k2 = alistLookup m k2 := by
  induction m with
  | nil => simp [alistSet, alistLookup, h]
  | cons hd tl ih =>
      obtain ⟨k3, v3⟩ := hd
      simp only [alistSet, alistLookup, beq_iff_eq]
      by_cases h3 : k3 = k
      · subst h3
        simp [alistLookup, h, Ne.symm h]
      · by_cases h4 : k3 = k2
        · subst h4
          simp [alistLookup, h3, Ne.symm h]
        · simp [alistLookup, h3, h4, ih]

theorem alistLookup_erase_other {α : Type} (m : List (String × α)) (k k2 : String)
    (h : k ≠ k2) : alistLookup (alistErase m k) k2 = alistLookup m k2 := by
  induction m with
  | nil => simp [alistErase, alistLookup]
  | cons hd tl ih =>
      obtain ⟨k3, v3⟩ := hd
      simp only [alistErase, alistLookup, beq_iff_eq]
      by_cases h3 : k3 = k
      · subst h3
        simp [alistLookup, h]
      · by_cases h4 : k3 = k2
        · subst h4
          simp [alistLookup, h3, Ne.symm h]
        · simp [alistLookup, h3, h4, ih]

mutual

theorem recalcNode_ok : ∀ n : FolderChunkNode, nodeOkB (recalcNode n) = true
  | .mk n p f c cs => by
      by_cases hf : f
      · simp [recalcNode, nodeOkB, hf]
      · simp only [recalcNode, hf, if_false, nodeOkB]
        simp [recalcChildren_ok cs, hf]

theorem recalcChildren_ok :
    ∀ cs : List (String × FolderChunkNode), childrenOkB (recalcChildren cs) = true
  | [] => by simp [recalcChildren, childrenOkB]
  | (k, child) :: rest => by
      simp [recalcChildren, childrenOkB, recalcNode_ok child, recalcChildren_ok rest]

end

/-- After a full recompute the (stop-at-file) invariant and the `totalChunks`
    equation hold unconditionally. -/
theorem recalculateFolderTotals_ok (s : FolderChunkStats) :
    statsOkB (recalculateFolderTotals s) = true := by
  simp [recalculateFolderTotals, statsOkB, recalcChildren_ok]

theorem updateFolderChunkStats_ok (stats : Option FolderChunkStats)
    (rootKey rootDisplayName : String) (relativeParts : List String)
    (chunkCount now : Nat)
    (h : ∀ s, stats = some s → statsOkB s = true) :
    statsOkB (updateFolderChunkStats stats rootKey rootDisplayName relativeParts
      chunkCount now) = true := by
  unfold updateFolderChunkStats
  cases relativeParts with
  | nil =>
      cases stats with
      | none => simp [statsOkB, childrenOkB, sumChildren]
      | some s => simpa using h s rfl
  | cons hd tl =>
      cases stats with
      | none =>
          simp only []
          have := recalculateFolderTotals_ok
          simp [statsOkB, recalculateFolderTotals, recalcChildren_ok]
      | some s =>
          simp [statsOkB, recalculateFolderTotals, recalcChildren_ok]

theorem removeFolderChunkStats_ok (stats : Option FolderChunkStats)
    (rootKey : String) (relativeParts : List String) (now : Nat)
    (h : ∀ s, stats = some s → statsOkB s = true) :
    ∀ s2, removeFolderChunkStats stats rootKey relativeParts now = some s2 →
      statsOkB s2 = true := by
  intro s2 h2
  unfold removeFolderChunkStats at h2
  split at h2
  · exact Option.noConfusion h2
  · rename_i s
    have hs := h s rfl
    split at h2
    · rw [Option.some_inj] at h2
      subst h2
      exact hs
    · split at h2
      · rw [Option.some_inj] at h2
        subst h2
        exact hs
      · split at h2
        · rw [Option.some_inj] at h2
          subst h2
          exact hs
        · rw [Option.some_inj] at h2
          subst h2
          simp [statsOkB, recalculateFolderTotals, recalcChildren_ok]


/-- C1 (amended): after every `updateFolderChunkStats` or
    `removeFolderChunkStats` call on stats satisfying the invariant, every
    non-file node that is not below a file node has `chunkCount` equal to the
    sum of its children's counts, and `totalChunks` equals the sum of the
    roots' counts.  (The unrestricted form of the invariant is refuted by
    `claim1_counterexample`: the recompute does not descend below file
    nodes.) -/
theorem claim1_folder_tree_invariant (stats : Option FolderChunkStats)
    (rootKey rootDisplayName : String) (relativeParts : List String)
    (chunkCount now : Nat)
    (h : ∀ t, stats = some t → statsOkB t = true) :
    statsOkB (updateFolderChunkStats stats rootKey rootDisplayName
      relativeParts chunkCount now) = true ∧
    (∀ s2, removeFolderChunkStats stats rootKey relativeParts now = some s2 →
      statsOkB s2 = true) :=
  ⟨updateFolderChunkStats_ok stats rootKey rootDisplayName relativeParts
      chunkCount now h,
    removeFolderChunkStats_ok stats rootKey relativeParts now h⟩

/-- Witness for C1: a concrete update and a concrete removal on concrete
    stats, with the hypothesis discharged by evaluation. -/
theorem claim1_folder_tree_invariant_witness :
    statsOkB (updateFolderChunkStats (some folderStatsSeq1) "r" "r"
      ["x", "d", "g"] 3 1) = true ∧
    (∀ s2, removeFolderChunkStats (some folderStatsSeq1) "r" ["x", "d", "g"] 1 =
        some s2 → statsOkB s2 = true) :=
  claim1_folder_tree_invariant (some folderStatsSeq1) "r" "r" ["x", "d", "g"] 3 1
    (by intro t ht; cases ht; decide)

/-- Counterexample for C1 as stated: after three concrete
    `updateFolderChunkStats` calls (the second of which turns the folder node
    `x` into a file node while it keeps children), the node `x/d` is a
    non-file node whose `chunkCount` (5) differs from the sum of its
    children's counts (5 + 3), so the claimed unrestricted invariant is
    false. -/
theorem claim1_counterexample : statsOkFullB folderStatsSeq3 = false := by decide


theorem alistLookup_some_key_mem {α : Type} (m : List (String × α)) (k : String)
    (v : α) (h : alistLookup m k = some v) : k ∈ m.map Prod.fst := by
  induction m with
  | nil => simp [alistLookup] at h
  | cons hd tl ih =>
      obtain ⟨k2, v2⟩ := hd
      simp only [alistLookup, beq_iff_eq] at h
      by_cases h2 : k2 = k
      · subst h2
        simp
      · simp only [h2, if_false] at h
        simp [ih h]

theorem docInv_iff_docInvB (s : TMState) : docInv s ↔ docInvB s = true := by
  constructor
  · intro h
    unfold docInvB
    rw [List.all_eq_true]
    intro kv hkv
    cases hl : alistLookup s.topicsIndex.topics kv.1 with
    | none => simp
    | some t => simpa using h kv.1 t hl
  · intro h tid t hl
    have hmem := alistLookup_some_key_mem _ _ _ hl
    rw [List.mem_map] at hmem
    obtain ⟨kv, hkv, hfst⟩ := hmem
    unfold docInvB at h
    rw [List.all_eq_true] at h
    have h2 := h kv hkv
    rw [hfst, hl] at h2
    simpa using h2

theorem addDocumentsFold_lookup_other (resolve : String → ResolvedPath)
    (tid : String) (now : Nat) (jobs : List IngestJob)
    (acc : List (String × List (String × TopicDocument)) ×
      List (String × FolderChunkStats)) (k : String) (hk : k ≠ tid) :
    alistLookup (jobs.foldl (addDocumentsStep resolve tid now) acc).1 k =
      alistLookup acc.1 k := by
  induction jobs generalizing acc with
  | nil => rfl
  | cons j rest ih =>
      simp only [List.foldl]
      rw [ih]
      unfold addDocumentsStep
      cases j.result with
      | none => rfl
      | some cc =>
          simp only []
          exact alistLookup_set_other _ _ _ _ (Ne.symm hk)

theorem docInv_addDocuments (s : TMState) (tid : String) (jobs : List IngestJob)
    (resolve : String → ResolvedPath) (now : Nat) (h : docInv s) (s2 : TMState)
    (h2 : addDocuments s tid jobs resolve now = .ok s2) : docInv s2 := by
  unfold addDocuments at h2
  cases hl : alistLookup s.topicsIndex.topics tid with
  | none => rw [hl] at h2; exact Except.noConfusion h2
  | some topic =>
      rw [hl] at h2
      simp only [Except.ok.injEq] at h2
      subst h2
      intro k t hk
      by_cases hkt : k = tid
      · subst hkt
        rw [alistLookup_set_self] at hk
        cases hk
        rfl
      · rw [alistLookup_set_other _ _ _ _ (fun he => hkt (Eq.symm he))] at hk
        have h3 := h k t hk
        simpa [addDocumentsFold_lookup_other resolve tid now jobs _ k hkt]
          using h3

theorem docInv_removeDocumentFinish (s : TMState) (topic : Topic)
    (tid fp : String) (docs2 : List (String × TopicDocument))
    (resolve : String → ResolvedPath) (now : Nat) (evs : List Event)
    (h : ∀ k t, alistLookup s.topicsIndex.topics k = some t → k ≠ tid →
      t.documentCount = ((alistLookup s.topicDocuments k).getD []).length)
    (hdocs : alistLookup s.topicDocuments tid = some docs2) :
    docInv (removeDocumentFinish s topic tid fp docs2 resolve now evs).2.1 := by
  unfold removeDocumentFinish
  intro k t hk
  by_cases hkt : k = tid
  · subst hkt
    simp only [alistLookup_set_self] at hk
    cases hk
    simp [hdocs]
  · simp only [alistLookup_set_other _ _ _ _ (fun he => hkt (Eq.symm he))] at hk
    exact h k t hk hkt

theorem docInv_removeDocument (s : TMState) (tid fp : String) (vs : VSOutcome)
    (resolve : String → ResolvedPath) (now : Nat) (h : docInv s)
    (hvs : ∀ e, vs ≠ .getThrew e) :
    docInv (removeDocumentByFilePath s tid fp vs resolve now).2.1 := by
  cases hl : alistLookup s.topicsIndex.topics tid with
  | none => simp only [removeDocumentByFilePath, hl]; exact h
  | some topic =>
      cases hd : alistLookup s.topicDocuments tid with
      | none => simp only [removeDocumentByFilePath, hl, hd]; exact h
      | some docs =>
          cases hf : findDocumentByFilePath docs fp with
          | none => simp only [removeDocumentByFilePath, hl, hd, hf]; exact h
          | some doc =>
              have hother : ∀ k t,
                  alistLookup ({ s with topicDocuments := alistSet s.topicDocuments tid (alistErase docs doc.id) } : TMState).topicsIndex.topics k = some t → k ≠ tid →
                  t.documentCount = ((alistLookup ({ s with topicDocuments := alistSet s.topicDocuments tid (alistErase docs doc.id) } : TMState).topicDocuments k).getD []).length := by
                intro k t hk hkt
                have h3 := h k t hk
                simpa [alistLookup_set_other _ _ _ _
                  (fun he => hkt (Eq.symm he))] using h3
              have hdocs2 : alistLookup ({ s with topicDocuments := alistSet s.topicDocuments tid (alistErase docs doc.id) } : TMState).topicDocuments tid = some (alistErase docs doc.id) :=
                alistLookup_set_self _ _ _
              cases vs with
              | getThrew e => exact absurd rfl (hvs e)
              | noStore =>
                  simp only [removeDocumentByFilePath, hl, hd, hf]
                  exact docInv_removeDocumentFinish _ topic tid fp _ resolve now _
                    hother hdocs2
              | store ok =>
                  simp only [removeDocumentByFilePath, hl, hd, hf]
                  exact docInv_removeDocumentFinish _ topic tid fp _ resolve now _
                    hother hdocs2

theorem docInv_applyTMOp (s : TMState) (op : TMOp) (h : docInv s)
    (hb : opBenign op = true) : docInv (applyTMOp s op) := by
  cases op with
  | add tid jobs resolve now =>
      cases h2 : addDocuments s tid jobs resolve now with
      | ok s2 =>
          have h3 := docInv_addDocuments s tid jobs resolve now h s2 h2
          simpa [applyTMOp, h2] using h3
      | error e => simpa [applyTMOp, h2] using h
  | remove tid fp vs resolve now =>
      simp only [applyTMOp]
      refine docInv_removeDocument s tid fp vs resolve now h ?_
      intro e he
      subst he
      simp [opBenign] at hb

/-- C2 (amended): starting from a state whose local topics all satisfy
    `documentCount = number of registered documents`, the invariant still
    holds after any sequence of `addDocuments` and `removeDocumentByFilePath`
    calls in which no remove call aborts with an exception while obtaining the
    vector store.  (A remove whose `getVectorStore` call throws — e.g. on an
    embedding-model mismatch — deletes the document from the in-memory map but
    never reaches the `documentCount` update; `claim2_counterexample` shows
    the resulting violation, so the unamended claim is false.) -/
theorem claim2_documentCount_invariant (s : TMState) (ops : List TMOp)
    (h : docInvB s = true) (hb : ops.all opBenign = true) :
    docInvB (ops.foldl applyTMOp s) = true := by
  rw [← docInv_iff_docInvB]
  rw [← docInv_iff_docInvB] at h
  induction ops generalizing s with
  | nil => exact h
  | cons op rest ih =>
      simp only [List.all_cons, Bool.and_eq_true] at hb
      exact ih _ (docInv_applyTMOp s op h hb.1) hb.2


/-- Witness for C2: a concrete benign remove-then-add sequence on a concrete
    consistent state keeps the invariant. -/
theorem claim2_documentCount_invariant_witness :
    docInvB ([TMOp.remove "t1" "a.md" (.store true) resolveConst 1,
      TMOp.add "t1" [{ filePath := "b.md", result := some 4, docId := "d2" }]
        resolveConst 2].foldl applyTMOp stateS0) = true :=
  claim2_documentCount_invariant stateS0 _ (by decide) (by decide)

/-- Counterexample for C2 as stated: on `stateS0` (which satisfies the
    invariant) a single `removeDocumentByFilePath` call whose `getVectorStore`
    throws (as it does on an embedding-model mismatch) removes the document
    from the in-memory map but aborts before the `documentCount` update, so
    the topic reports 1 document while 0 are registered. -/
theorem claim2_counterexample :
    docInvB stateS0 = true ∧
    docInvB (applyTMOp stateS0 (TMOp.remove "t1" "a.md"
      (.getThrew "model mismatch") resolveConst 1)) = false := by
  exact ⟨by decide, by decide⟩


theorem containsSub_mismatch_stored (tn sm cm : String) :
    ContainsSub (mismatchMessage tn sm cm) sm := by
  refine ⟨"Topic \"" ++ tn ++ "\" was indexed with embedding model \"",
    "\", but the current setting is \"" ++ cm ++ "\". The model \"" ++ sm ++
      "\" is not currently available/downloaded. Please switch back to \"" ++
      sm ++ "\" in settings to download it, or recreate the topic.", ?_⟩
  simp [mismatchMessage, String.append_assoc]

theorem containsSub_mismatch_current (tn sm cm : String) :
    ContainsSub (mismatchMessage tn sm cm) cm := by
  refine ⟨"Topic \"" ++ tn ++ "\" was indexed with embedding model \"" ++ sm ++
    "\", but the current setting is \"",
    "\". The model \"" ++ sm ++
      "\" is not currently available/downloaded. Please switch back to \"" ++
      sm ++ "\" in settings to download it, or recreate the topic.", ?_⟩
  simp [mismatchMessage, String.append_assoc]

theorem containsSub_switchFail_stored (tn sm cm err : String) :
    ContainsSub (switchFailMessage tn sm cm err) sm := by
  refine ⟨"Topic \"" ++ tn ++ "\" was indexed with embedding model \"",
    "\", but the current setting is \"" ++ cm ++
      "\". Failed to switch models: " ++ err, ?_⟩
  simp [switchFailMessage, String.append_assoc]

theorem containsSub_switchFail_current (tn sm cm err : String) :
    ContainsSub (switchFailMessage tn sm cm err) cm := by
  refine ⟨"Topic \"" ++ tn ++ "\" was indexed with embedding model \"" ++ sm ++
    "\", but the current setting is \"",
    "\". Failed to switch models: " ++ err, ?_⟩
  simp [switchFailMessage, String.append_assoc]

theorem handleSearchQueryPhase_activeModel (env : SearchEnv) (q am : String) :
    (handleSearchQueryPhase env q am).activeModel = am := by
  unfold handleSearchQueryPhase
  cases env.queryOutcome <;> rfl

theorem handleSearchAgentPhase_activeModel (env : SearchEnv) (q : String)
    (t : Topic) (am : String) (c : Bool) :
    (handleSearchAgentPhase env q t am c).activeModel = am := by
  unfold handleSearchAgentPhase
  by_cases hc : (if c then false else env.agentCached t.id) = true
  · simp [hc, handleSearchQueryPhase_activeModel]
  · rw [Bool.not_eq_true] at hc
    simp only [hc, Bool.false_eq_true, if_false]
    cases env.vectorStore t.id with
    | threw e => rfl
    | nullStore => rfl
    | okStore =>
        cases env.agentInitOutcome with
        | error e => rfl
        | ok u => simp [handleSearchQueryPhase_activeModel]

/-- C3: a topic whose stored embedding model differs from the active one is
    never served with the mismatched model.  First conjunct: `getVectorStore`
    (which runs `ensureEmbeddingModelCompatibility` before any cache or disk
    access) fails when the stored model differs from the active model and the
    stored model is not available, with an error naming both identifiers.
    Second conjunct: on a search, the handler either switches to the topic's
    model (so every outcome, in particular every 200, is served under the
    topic's model) or it answers 500 with an error naming both identifiers. -/
theorem claim3_model_mismatch_handling :
    (∀ (md : StoreMetadata) (stored current : String)
        (avail : List AvailableModel) (topicName : String) (cached loadOk : Bool),
      md.embeddingModel = some stored →
      stored ≠ current →
      avail.any (fun m =>
        m.name == stored && (m.downloaded || m.source == "local")) = false →
      getVectorStoreChecked (some md) current avail topicName cached loadOk =
        .error (mismatchMessage topicName stored current) ∧
      ContainsSub (mismatchMessage topicName stored current) stored ∧
      ContainsSub (mismatchMessage topicName stored current) current) ∧
    (∀ (env : SearchEnv) (q n : String) (t : Topic) (m : String),
      strTruthy q = true →
      env.managerInit = true →
      strTruthy n = true →
      findTopicByName env.topics n = some t →
      env.statsModel t.id = some m →
      m ≠ env.currentModel →
      ((env.switchOk m = true ∧
          (handleSearch env (some q) (some n)).activeModel = m) ∨
        (env.switchOk m = false ∧
          (handleSearch env (some q) (some n)).status = 500 ∧
          (handleSearch env (some q) (some n)).body =
            .errorBody (switchFailMessage t.name m env.currentModel
              (env.switchErr m)) ∧
          ContainsSub (switchFailMessage t.name m env.currentModel
            (env.switchErr m)) m ∧
          ContainsSub (switchFailMessage t.name m env.currentModel
            (env.switchErr m)) env.currentModel)) ∧
      ((handleSearch env (some q) (some n)).status = 200 →
        (handleSearch env (some q) (some n)).activeModel = m)) := by
  constructor
  · intro md stored current avail topicName cached loadOk h1 h2 h3
    refine ⟨?_, containsSub_mismatch_stored _ _ _,
      containsSub_mismatch_current _ _ _⟩
    have h2b : (stored == current) = false := by
      simp [beq_eq_false_iff_ne, h2]
    simp [getVectorStoreChecked, ensureEmbeddingModelCompatibility, h1, h2b, h3]
  · intro env q n t m hq hi hn h4 h5 h6
    have hout : handleSearch env (some q) (some n) =
        handleSearchModelPhase env q t := by
      simp [handleSearch, optStrTruthy, hq, hi, hn, h4]
    have h6b : (m == env.currentModel) = false := by
      simp [beq_eq_false_iff_ne, h6]
    cases hsw : env.switchOk m with
    | true =>
        have hmod : handleSearchModelPhase env q t =
            handleSearchAgentPhase env q t m true := by
          simp [handleSearchModelPhase, h5, h6b, hsw]
        refine ⟨Or.inl ⟨rfl, ?_⟩, fun _ => ?_⟩
        · rw [hout, hmod]
          exact handleSearchAgentPhase_activeModel env q t m true
        · rw [hout, hmod]
          exact handleSearchAgentPhase_activeModel env q t m true
    | false =>
        have hmod : handleSearchModelPhase env q t =
            { status := 500,
              body := .errorBody (switchFailMessage t.name m env.currentModel
                (env.switchErr m)),
              activeModel := env.currentModel } := by
          simp [handleSearchModelPhase, h5, h6b, hsw]
        refine ⟨Or.inr ⟨rfl, ?_, ?_, containsSub_switchFail_stored _ _ _ _,
          containsSub_switchFail_current _ _ _ _⟩, fun h200 => ?_⟩
        · rw [hout, hmod]
        · rw [hout, hmod]
        · rw [hout, hmod] at h200
          simp at h200


/-- Witness for C3: on the concrete environment the query is served under the
    topic's model m1, and the concrete `getVectorStore` check fails with the
    both-model message when m1 is not available. -/
theorem claim3_model_mismatch_handling_witness :
    (handleSearch envW (some "q") (some "Docs")).activeModel = "m1" ∧
    getVectorStoreChecked (some { embeddingModel := some "m1" }) "m2" [] "Docs"
      false false = .error (mismatchMessage "Docs" "m1" "m2") := by
  have h2 := claim3_model_mismatch_handling.2 envW "q" "Docs" topicT1 "m1"
    (by decide) rfl (by decide) (by decide) rfl (by decide)
  have h1 := claim3_model_mismatch_handling.1 { embeddingModel := some "m1" }
    "m1" "m2" [] "Docs" false false rfl (by decide) (by decide)
  refine ⟨?_, h1.1⟩
  rcases h2.1 with ⟨_, hax⟩ | ⟨hfalse, _⟩
  · exact hax
  · exact absurd hfalse (by decide)

/-- C4: when any topic of the common registry has a name equal
    (case-insensitively) to a local topic's name, `loadCommonDatabase` aborts
    as a whole: the result state is the input state with the common index, the
    common document map and the common database path reset — so no common
    topic or document is loaded and the local registry is untouched. -/
theorem claim4_common_load_aborts_on_collision (s : TMState) (cp : String)
    (parsedIndex : TopicsIndex)
    (docsOnDisk : String → Option (List (String × TopicDocument)))
    (kv : String × Topic) (kv2 : String × Topic)
    (hmem : kv ∈ parsedIndex.topics) (hmem2 : kv2 ∈ s.topicsIndex.topics)
    (hname : strLower kv.2.name = strLower kv2.2.name) :
    loadCommonDatabase s (some cp) true true true parsedIndex docsOnDisk =
      { s with
          commonTopicsIndex := none
          commonTopicDocuments := []
          commonDatabasePath := none } := by
  have hconf : (parsedIndex.topics.filter (fun kv3 =>
      (s.topicsIndex.topics.map (fun kv4 => strLower kv4.2.name)).contains
        (strLower kv3.2.name))).isEmpty = false := by
    rw [List.isEmpty_eq_false_iff_exists_mem]
    refine ⟨kv, ?_⟩
    rw [List.mem_filter]
    refine ⟨hmem, ?_⟩
    rw [List.contains_eq_any_beq, List.any_eq_true]
    exact ⟨strLower kv2.2.name, List.mem_map.mpr ⟨kv2, hmem2, rfl⟩,
      by simp [hname]⟩
  simp only [loadCommonDatabase, hconf]
  simp

/-- Witness for C4: a concrete common registry whose topic name collides
    case-insensitively with the local topic name "Docs" is rejected
    wholesale. -/
theorem claim4_common_load_aborts_on_collision_witness :
    loadCommonDatabase stateS0 (some "/common") true true true
      { topics := [("c1", topicC1)], modelName := "m1", lastUpdated := 0 }
      (fun _ => none) =
      { stateS0 with
          commonTopicsIndex := none
          commonTopicDocuments := []
          commonDatabasePath := none } :=
  claim4_common_load_aborts_on_collision stateS0 "/common" _ (fun _ => none)
    ("c1", topicC1) ("t1", topicT1) (by decide) (by decide) (by decide)


theorem alistLookup_append_none {α : Type} (m m2 : List (String × α))
    (k : String) (h : alistLookup m k = none) :
    alistLookup (m ++ m2) k = alistLookup m2 k := by
  induction m with
  | nil => rfl
  | cons hd tl ih =>
      obtain ⟨k2, v2⟩ := hd
      simp only [alistLookup, beq_iff_eq] at h
      by_cases h2 : k2 = k
      · simp [h2] at h
      · simp only [List.cons_append, alistLookup, beq_iff_eq, h2, if_false]
        exact ih (by simpa [h2] using h)

theorem alistSet_of_lookup_none {α : Type} (m : List (String × α)) (k : String)
    (v : α) (h : alistLookup m k = none) : alistSet m k v = m ++ [(k, v)] := by
  induction m with
  | nil => rfl
  | cons hd tl ih =>
      obtain ⟨k2, v2⟩ := hd
      simp only [alistLookup, beq_iff_eq] at h
      by_cases h2 : k2 = k
      · simp [h2] at h
      · simp only [alistSet, beq_iff_eq, h2, if_false, List.cons_append,
          List.cons.injEq, true_and]
        exact ih (by simpa [h2] using h)

theorem foldl_alistSet_fresh (ds : List TopicDocument)
    (m : List (String × TopicDocument))
    (hfresh : ∀ d ∈ ds, alistLookup m d.id = none)
    (hnd : (ds.map TopicDocument.id).Nodup) :
    ds.foldl (fun m2 d => alistSet m2 d.id d) m =
      m ++ ds.map (fun d => (d.id, d)) := by
  induction ds generalizing m with
  | nil => simp
  | cons d rest ih =>
      simp only [List.map_cons, List.nodup_cons] at hnd
      simp only [List.foldl]
      rw [alistSet_of_lookup_none _ _ _ (hfresh d (by simp))]
      rw [ih (m ++ [(d.id, d)]) ?_ hnd.2]
      · simp
      · intro d2 hd2
        rw [alistLookup_append_none _ _ _ (hfresh d2 (by simp [hd2]))]
        have hne : d2.id ≠ d.id := by
          intro he
          exact hnd.1 (he ▸ List.mem_map_of_mem TopicDocument.id hd2)
        simp [alistLookup, Ne.symm hne]

theorem enumFrom_remap_chunkCount (g : Nat → String) (nid : String)
    (docs : List TopicDocument) : ∀ n : Nat,
    ((List.enumFrom n docs).map (fun p =>
      ({ p.2 with id := g p.1, topicId := nid } : TopicDocument))).map
        TopicDocument.chunkCount = docs.map TopicDocument.chunkCount := by
  induction docs with
  | nil => intro n; rfl
  | cons d rest ih =>
      intro n
      simp [List.enumFrom, ih (n + 1)]

theorem enumFrom_remap_id (g : Nat → String) (nid : String)
    (docs : List TopicDocument) : ∀ n : Nat,
    ((List.enumFrom n docs).map (fun p =>
      ({ p.2 with id := g p.1, topicId := nid } : TopicDocument))).map
        TopicDocument.id = (List.range' n docs.length).map g := by
  induction docs with
  | nil => intro n; rfl
  | cons d rest ih =>
      intro n
      simp [List.enumFrom, List.range', ih (n + 1)]

theorem enumFrom_remap_topicId (g : Nat → String) (nid : String)
    (docs : List TopicDocument) : ∀ n : Nat,
    ∀ d ∈ (List.enumFrom n docs).map (fun p =>
      ({ p.2 with id := g p.1, topicId := nid } : TopicDocument)),
      d.topicId = nid := by
  induction docs with
  | nil => intro n d hd; simp [List.enumFrom] at hd
  | cons d0 rest ih =>
      intro n d hd
      simp only [List.enumFrom, List.map_cons, List.mem_cons] at hd
      cases hd with
      | inl h => subst h; rfl
      | inr h => exact ih (n + 1) d h


theorem importTopic_newDocs (s : TMState) (data : ExportedTopicData)
    (newId : String) (g : Nat → String) (now : Nat)
    (hids : ((List.range data.documents.length).map g).Nodup) :
    getTopicDocumentsList (importTopic s data newId g now).2 newId =
      data.documents.enum.map (fun p =>
        ({ p.2 with id := g p.1, topicId := newId } : TopicDocument)) := by
  have hnd : ((data.documents.enum.map (fun p =>
      ({ p.2 with id := g p.1, topicId := newId } : TopicDocument))).map
        TopicDocument.id).Nodup := by
    have he : data.documents.enum = List.enumFrom 0 data.documents := rfl
    rw [he, enumFrom_remap_id g newId data.documents 0,
      ← List.range_eq_range']
    exact hids
  have hfold := foldl_alistSet_fresh (data.documents.enum.map (fun p =>
      ({ p.2 with id := g p.1, topicId := newId } : TopicDocument))) []
    (fun d _ => rfl) hnd
  simp only [importTopic, getTopicDocumentsList, alistLookup_set_self, hfold]
  simp [List.map_map, Function.comp]

/-- C5: exporting a local topic and importing the payload yields a topic under
    the fresh id `newId` (different from the original id), with the same
    `documentCount`, documents with unchanged chunk counts whose ids are the
    freshly generated ones and whose `topicId` is the new topic id; on a
    case-insensitive name collision with an existing local topic the name
    gets the " (imported)" suffix instead of the import failing, and without
    a collision the name is kept. -/
theorem claim5_export_import_roundtrip (s : TMState) (tid : String)
    (now1 now2 : Nat) (newId : String) (docIdGen : Nat → String)
    (data : ExportedTopicData)
    (hexp : exportTopic s tid now1 = .ok data)
    (hfreshTopic : newId ≠ data.topic.id)
    (hids : ((List.range data.documents.length).map docIdGen).Nodup) :
    (importTopic s data newId docIdGen now2).1.id = newId ∧
    (importTopic s data newId docIdGen now2).1.id ≠ data.topic.id ∧
    (importTopic s data newId docIdGen now2).1.documentCount =
      data.topic.documentCount ∧
    (getTopicDocumentsList (importTopic s data newId docIdGen now2).2
        newId).map TopicDocument.chunkCount =
      (getTopicDocumentsList s tid).map TopicDocument.chunkCount ∧
    (getTopicDocumentsList (importTopic s data newId docIdGen now2).2
        newId).map TopicDocument.id =
      (List.range data.documents.length).map docIdGen ∧
    (∀ d ∈ getTopicDocumentsList (importTopic s data newId docIdGen now2).2
        newId, d.topicId = newId) ∧
    ((s.topicsIndex.topics.any (fun kv =>
        strLower kv.2.name == strLower data.topic.name)) = true →
      (importTopic s data newId docIdGen now2).1.name =
        data.topic.name ++ " (imported)") ∧
    ((s.topicsIndex.topics.any (fun kv =>
        strLower kv.2.name == strLower data.topic.name)) = false →
      (importTopic s data newId docIdGen now2).1.name = data.topic.name) := by
  have hdocs : data.documents = getTopicDocumentsList s tid := by
    unfold exportTopic at hexp
    split at hexp
    · exact Except.noConfusion hexp
    · split at hexp
      · exact Except.noConfusion hexp
      · rw [Except.ok.injEq] at hexp
        rw [← hexp]
  have hnd := importTopic_newDocs s data newId docIdGen now2 hids
  have hid1 : (importTopic s data newId docIdGen now2).1.id = newId := by
    by_cases hcol : (s.topicsIndex.topics.any (fun kv =>
        strLower kv.2.name == strLower data.topic.name)) = true
    · simp [importTopic, hcol]
    · rw [Bool.not_eq_true] at hcol
      simp [importTopic, hcol]
  refine ⟨hid1, ?_, ?_, ?_, ?_, ?_, ?_, ?_⟩
  · rw [hid1]; exact hfreshTopic
  · by_cases hcol : (s.topicsIndex.topics.any (fun kv =>
        strLower kv.2.name == strLower data.topic.name)) = true
    · simp [importTopic, hcol]
    · rw [Bool.not_eq_true] at hcol
      simp [importTopic, hcol]
  · rw [hnd, ← hdocs]
    have he : data.documents.enum = List.enumFrom 0 data.documents := rfl
    rw [he, enumFrom_remap_chunkCount docIdGen newId data.documents 0]
  · rw [hnd]
    have he : data.documents.enum = List.enumFrom 0 data.documents := rfl
    rw [he, enumFrom_remap_id docIdGen newId data.documents 0,
      ← List.range_eq_range']
  · rw [hnd]
    have he : data.documents.enum = List.enumFrom 0 data.documents := rfl
    rw [he]
    exact enumFrom_remap_topicId docIdGen newId data.documents 0
  · intro hcol
    simp [importTopic, hcol]
  · intro hcol
    simp [importTopic, hcol]


/-- Witness for C5: the concrete roundtrip on `stateS0` renames the imported
    topic to "Docs (imported)" and keeps its document count. -/
theorem claim5_export_import_roundtrip_witness :
    (importTopic stateS0 exportedDocs0 "t2" (fun _ => "nd0") 8).1.name =
      "Docs (imported)" ∧
    (importTopic stateS0 exportedDocs0 "t2" (fun _ => "nd0") 8).1.documentCount
      = 1 := by
  have h := claim5_export_import_roundtrip stateS0 "t1" 7 8 "t2"
    (fun _ => "nd0") exportedDocs0 (by rfl) (by decide) (by decide)
  refine ⟨?_, ?_⟩
  · rw [h.2.2.2.2.2.2.1 (by decide)]
    decide
  · rw [h.2.2.1]
    decide


/-- C6 (amended): `removeDocumentByFilePath` locates the document by EXACT
    string equality on the stored `filePath` (not by normalized path — see
    `claim6_counterexample`).  When no document matches it returns false and
    changes nothing.  When one matches, the metadata is removed first (the
    trace starts with `metadataRemoved`), the vector-store chunk delete is
    attempted afterwards and its failure is non-fatal (the call still
    completes with `true` for either delete outcome), the folder usage is
    updated, and the call returns true.  When `getVectorStore` itself throws,
    the exception escapes after the metadata removal. -/
theorem claim6_removeDocument_behaviour (s : TMState) (tid fp : String)
    (vs : VSOutcome) (resolve : String → ResolvedPath) (now : Nat)
    (topic : Topic) (docs : List (String × TopicDocument))
    (htopic : alistLookup s.topicsIndex.topics tid = some topic)
    (hdocs : alistLookup s.topicDocuments tid = some docs) :
    (findDocumentByFilePath docs fp = none →
      removeDocumentByFilePath s tid fp vs resolve now =
        (.completed false, s, [])) ∧
    (∀ doc ok, findDocumentByFilePath docs fp = some doc → vs = .store ok →
      (removeDocumentByFilePath s tid fp vs resolve now).1 =
        .completed true ∧
      (removeDocumentByFilePath s tid fp vs resolve now).2.2 =
        [.metadataRemoved doc.id, .vectorDeleteAttempted ok,
          .topicsIndexSaved, .topicDocumentsSaved tid,
          .folderUsageUpdated tid] ∧
      alistLookup (removeDocumentByFilePath s tid fp vs
          resolve now).2.1.topicDocuments tid =
        some (alistErase docs doc.id)) ∧
    (∀ doc, findDocumentByFilePath docs fp = some doc → vs = .noStore →
      (removeDocumentByFilePath s tid fp vs resolve now).1 =
        .completed true ∧
      (removeDocumentByFilePath s tid fp vs resolve now).2.2 =
        [.metadataRemoved doc.id, .topicsIndexSaved,
          .topicDocumentsSaved tid, .folderUsageUpdated tid]) ∧
    (∀ doc e, findDocumentByFilePath docs fp = some doc → vs = .getThrew e →
      (removeDocumentByFilePath s tid fp vs resolve now).1 = .threw e ∧
      (removeDocumentByFilePath s tid fp vs resolve now).2.2 =
        [.metadataRemoved doc.id] ∧
      alistLookup (removeDocumentByFilePath s tid fp vs
          resolve now).2.1.topicDocuments tid =
        some (alistErase docs doc.id)) := by
  refine ⟨?_, ?_, ?_, ?_⟩
  · intro hf
    simp [removeDocumentByFilePath, htopic, hdocs, hf]
  · intro doc ok hf hvs
    subst hvs
    simp [removeDocumentByFilePath, htopic, hdocs, hf, removeDocumentFinish,
      alistLookup_set_self]
  · intro doc hf hvs
    subst hvs
    simp [removeDocumentByFilePath, htopic, hdocs, hf, removeDocumentFinish,
      alistLookup_set_self]
  · intro doc e hf hvs
    subst hvs
    simp [removeDocumentByFilePath, htopic, hdocs, hf, alistLookup_set_self]

/-- Witness for C6: the concrete behaviours on `stateNested`, including a
    failing chunk delete that is still reported as success. -/
theorem claim6_removeDocument_behaviour_witness :
    (removeDocumentByFilePath stateNested "t1" "missing.md" (.store true)
      resolveConst 1 = (.completed false, stateNested, [])) ∧
    (removeDocumentByFilePath stateNested "t1" "a/b.md" (.store false)
        resolveConst 1).1 = .completed true ∧
    (removeDocumentByFilePath stateNested "t1" "a/b.md" (.store false)
        resolveConst 1).2.2 =
      [.metadataRemoved "d9", .vectorDeleteAttempted false,
        .topicsIndexSaved, .topicDocumentsSaved "t1",
        .folderUsageUpdated "t1"] := by
  have h := claim6_removeDocument_behaviour stateNested "t1" "missing.md"
    (.store true) resolveConst 1 topicT1 [("d9", docD2)] (by decide) (by decide)
  have h2 := claim6_removeDocument_behaviour stateNested "t1" "a/b.md"
    (.store false) resolveConst 1 topicT1 [("d9", docD2)] (by decide) (by decide)
  have h3 := h2.2.1 docD2 false (by decide) rfl
  exact ⟨h.1 (by decide), h3.1, h3.2.1⟩

/-- Counterexample for C6 as stated: the claim says the document is located
    by normalized file path; the state `stateNested` registers a document
    whose stored path `a/b.md` has the same normalization as the queried path
    `a/./b.md`, yet the call finds nothing and returns false. -/
theorem claim6_counterexample :
    posixNormalize "a/./b.md" = posixNormalize docD2.filePath ∧
    alistLookup stateNested.topicDocuments "t1" = some [("d9", docD2)] ∧
    (removeDocumentByFilePath stateNested "t1" "a/./b.md" (.store true)
        resolveConst 1).1 = .completed false ∧
    (removeDocumentByFilePath stateNested "t1" "a/./b.md" (.store true)
        resolveConst 1).2.2 = [] := by
  exact ⟨by decide, by decide, by decide, by decide⟩


theorem validStatus_queryPhase (env : SearchEnv) (q am : String) :
    validStatus (handleSearchQueryPhase env q am) := by
  unfold handleSearchQueryPhase
  cases env.queryOutcome <;> simp [validStatus, HttpBody.isError]

theorem validStatus_agentPhase (env : SearchEnv) (q : String) (t : Topic)
    (am : String) (c : Bool) :
    validStatus (handleSearchAgentPhase env q t am c) := by
  unfold handleSearchAgentPhase
  by_cases hc : (if c then false else env.agentCached t.id) = true
  · simp only [hc, if_true]
    exact validStatus_queryPhase env q am
  · rw [Bool.not_eq_true] at hc
    simp only [hc, Bool.false_eq_true, if_false]
    cases env.vectorStore t.id with
    | threw e => simp [validStatus, HttpBody.isError]
    | nullStore => simp [validStatus, HttpBody.isError]
    | okStore =>
        cases env.agentInitOutcome with
        | error e => simp [validStatus, HttpBody.isError]
        | ok u => exact validStatus_queryPhase env q am

theorem validStatus_modelPhase (env : SearchEnv) (q : String) (t : Topic) :
    validStatus (handleSearchModelPhase env q t) := by
  unfold handleSearchModelPhase
  cases env.statsModel t.id with
  | none => exact validStatus_agentPhase env q t env.currentModel false
  | some m =>
      by_cases h : (m == env.currentModel) = true
      · simp only [h, if_true]
        exact validStatus_agentPhase env q t env.currentModel false
      · rw [Bool.not_eq_true] at h
        simp only [h, Bool.false_eq_true, if_false]
        by_cases hs : env.switchOk m = true
        · simp only [hs, if_true]
          exact validStatus_agentPhase env q t m true
        · rw [Bool.not_eq_true] at hs
          simp only [hs, Bool.false_eq_true, if_false]
          simp [validStatus, HttpBody.isError]

/-- C7: the GET /search status codes.  400 when q is missing or empty; 503
    when the core is not initialized; 404 naming the topic when an explicitly
    named topic is absent; 404 "No topics available" when no topic exists and
    none is named; 500 on a model-switch failure; 500 when the topic's vector
    store is unavailable; and every response is either a 200 with a search
    body or one of the codes 400/404/500/503 with an error-string body. -/
theorem claim7_search_error_codes :
    (∀ (env : SearchEnv) (q tn : Option String), optStrTruthy q = false →
      handleSearch env q tn =
        { status := 400, body := .errorBody "Missing required parameter: q",
          activeModel := env.currentModel }) ∧
    (∀ (env : SearchEnv) (q tn : Option String), optStrTruthy q = true →
      env.managerInit = false →
      handleSearch env q tn =
        { status := 503, body := .errorBody "Topic manager not initialized",
          activeModel := env.currentModel }) ∧
    (∀ (env : SearchEnv) (q : Option String) (n : String),
      optStrTruthy q = true → env.managerInit = true → strTruthy n = true →
      findTopicByName env.topics n = none →
      handleSearch env q (some n) =
        { status := 404, body := .errorBody ("Topic not found: " ++ n),
          activeModel := env.currentModel }) ∧
    (∀ (env : SearchEnv) (q tn : Option String), optStrTruthy q = true →
      env.managerInit = true → optStrTruthy tn = false → env.topics = [] →
      handleSearch env q tn =
        { status := 404, body := .errorBody "No topics available",
          activeModel := env.currentModel }) ∧
    (∀ (env : SearchEnv) (q : String) (t : Topic) (m : String),
      env.statsModel t.id = some m → (m == env.currentModel) = false →
      env.switchOk m = false →
      (handleSearchModelPhase env q t).status = 500 ∧
      (handleSearchModelPhase env q t).body.isError = true) ∧
    (∀ (env : SearchEnv) (q : String) (t : Topic) (am : String),
      env.agentCached t.id = false → env.vectorStore t.id = .nullStore →
      handleSearchAgentPhase env q t am false =
        { status := 500,
          body := .errorBody "Vector store not available for topic",
          activeModel := am }) ∧
    (∀ (env : SearchEnv) (q tn : Option String),
      validStatus (handleSearch env q tn)) := by
  refine ⟨?_, ?_, ?_, ?_, ?_, ?_, ?_⟩
  · intro env q tn hq
    simp [handleSearch, hq]
  · intro env q tn hq hm
    simp [handleSearch, hq, hm]
  · intro env q n hq hm hn hf
    have hn2 : optStrTruthy (some n) = true := hn
    simp [handleSearch, hq, hm, hn2, hf]
  · intro env q tn hq hm htn htop
    simp [handleSearch, hq, hm, htn, htop]
  · intro env q t m hsm hne hsw
    simp [handleSearchModelPhase, hsm, hne, hsw, HttpBody.isError]
  · intro env q t am hc hv
    simp [handleSearchAgentPhase, hc, hv]
  · intro env q tn
    unfold handleSearch
    by_cases hq : optStrTruthy q = true
    · by_cases hm : env.managerInit = true
      · simp only [hq, hm, Bool.not_true, Bool.false_eq_true, if_false]
        by_cases htn : optStrTruthy tn = true
        · simp only [htn, if_true]
          cases hf : findTopicByName env.topics (tn.getD "") with
          | none => simp [validStatus, HttpBody.isError]
          | some t => exact validStatus_modelPhase env (q.getD "") t
        · rw [Bool.not_eq_true] at htn
          simp only [htn, Bool.false_eq_true, if_false]
          cases ht : env.topics.head? with
          | none => simp [validStatus, HttpBody.isError]
          | some t => exact validStatus_modelPhase env (q.getD "") t
      · rw [Bool.not_eq_true] at hm
        simp [hq, hm, validStatus, HttpBody.isError]
    · rw [Bool.not_eq_true] at hq
      simp [hq, validStatus, HttpBody.isError]

/-- Witness for C7: concrete requests — a missing q gives 400 and a search on
    an environment without topics gives 404 "No topics available". -/
theorem claim7_search_error_codes_witness :
    handleSearch { envW with topics := [] } none none =
      { status := 400, body := .errorBody "Missing required parameter: q",
        activeModel := "m2" } ∧
    handleSearch { envW with topics := [] } (some "test") none =
      { status := 404, body := .errorBody "No topics available",
        activeModel := "m2" } :=
  ⟨claim7_search_error_codes.1 { envW with topics := [] } none none rfl,
    claim7_search_error_codes.2.2.2.1 { envW with topics := [] } (some "test")
      none (by decide) rfl rfl rfl⟩


theorem alistLookup_eq_none_of_not_mem {α : Type} (m : List (String × α))
    (k : String) (h : k ∉ m.map Prod.fst) : alistLookup m k = none := by
  cases hl : alistLookup m k with
  | none => rfl
  | some v => exact absurd (alistLookup_some_key_mem m k v hl) h

theorem alistLookup_erase_self_of_nodup {α : Type} (m : List (String × α))
    (k : String) (h : (m.map Prod.fst).Nodup) :
    alistLookup (alistErase m k) k = none := by
  induction m with
  | nil => rfl
  | cons hd tl ih =>
      obtain ⟨k2, v2⟩ := hd
      simp only [List.map_cons, List.nodup_cons] at h
      simp only [alistErase, beq_iff_eq]
      by_cases h2 : k2 = k
      · subst h2
        simp only [if_true]
        exact alistLookup_eq_none_of_not_mem tl k2 h.1
      · simp only [h2, if_false, alistLookup, beq_iff_eq, h2]
        exact ih h.2

/-- C8 (amended): for an existing local topic, both `deleteTopic` and
    `deleteTopicVectorStore` remove the vector-store data, drop the topic's
    cache entry and invoke the registered cleanup callback;
    `deleteTopicVectorStore` additionally clears the folder-usage state, but
    `deleteTopic` leaves the folder-usage entry untouched (the unamended
    claim is refuted by `claim8_counterexample`). -/
theorem claim8_delete_cleanup (s : TMState) (tid : String) (now : Nat)
    (topic : Topic)
    (htopic : alistLookup s.topicsIndex.topics tid = some topic)
    (hcache : s.vectorStoreCache.Nodup)
    (hfs : (s.folderChunkStats.map Prod.fst).Nodup) :
    (∃ s2, (deleteTopicVectorStore s tid).1 = .ok s2 ∧
      tid ∉ s2.vectorStoreCache ∧
      alistLookup s2.folderChunkStats tid = none ∧
      s2.topicsIndex = s.topicsIndex) ∧
    (deleteTopicVectorStore s tid).2 =
      [.vectorStoreDataDeleted tid, .agentCacheCleanup tid] ∧
    (∃ s3, (deleteTopic s tid now).1 = .ok s3 ∧
      tid ∉ s3.vectorStoreCache ∧
      s3.folderChunkStats = s.folderChunkStats) ∧
    (deleteTopic s tid now).2 =
      [.vectorStoreDataDeleted tid, .documentsFileDeleted tid,
      .topicsIndexSaved, .agentCacheCleanup tid] := by
  have hnotmem : tid ∉ s.vectorStoreCache.erase tid := by
    intro hmem
    rw [List.Nodup.mem_erase_iff hcache] at hmem
    exact hmem.1 rfl
  refine ⟨?_, ?_, ?_, ?_⟩
  · refine ⟨{ s with vectorStoreCache := s.vectorStoreCache.erase tid, folderChunkStats := alistErase s.folderChunkStats tid }, ?_, hnotmem, ?_, rfl⟩
    · simp [deleteTopicVectorStore, htopic]
    · exact alistLookup_erase_self_of_nodup s.folderChunkStats tid hfs
  · simp [deleteTopicVectorStore, htopic]
  · refine ⟨{ s with vectorStoreCache := s.vectorStoreCache.erase tid, topicDocuments := alistErase s.topicDocuments tid, topicsIndex := { s.topicsIndex with topics := alistErase s.topicsIndex.topics tid, lastUpdated := now } }, ?_, hnotmem, rfl⟩
    simp [deleteTopic, htopic]
  · simp [deleteTopic, htopic]


/-- Witness for C8: the amended behaviour on the concrete state `stateFS`. -/
theorem claim8_delete_cleanup_witness :
    (∃ s2, (deleteTopicVectorStore stateFS "t1").1 = .ok s2 ∧
      "t1" ∉ s2.vectorStoreCache ∧
      alistLookup s2.folderChunkStats "t1" = none ∧
      s2.topicsIndex = stateFS.topicsIndex) ∧
    (deleteTopicVectorStore stateFS "t1").2 =
      [.vectorStoreDataDeleted "t1", .agentCacheCleanup "t1"] ∧
    (∃ s3, (deleteTopic stateFS "t1" 1).1 = .ok s3 ∧
      "t1" ∉ s3.vectorStoreCache ∧
      s3.folderChunkStats = stateFS.folderChunkStats) ∧
    (deleteTopic stateFS "t1" 1).2 =
      [.vectorStoreDataDeleted "t1", .documentsFileDeleted "t1",
      .topicsIndexSaved, .agentCacheCleanup "t1"] :=
  claim8_delete_cleanup stateFS "t1" 1 topicT1 (by decide) (by decide)
    (by decide)

/-- Counterexample for C8 as stated: `deleteTopic` on `stateFS` succeeds but
    the folder-usage entry of the deleted topic is still present afterwards,
    so `deleteTopic` does not clear the folder-usage state. -/
theorem claim8_counterexample :
    ((deleteTopic stateFS "t1" 1).1.toOption.map
      (fun s3 => (alistLookup s3.folderChunkStats "t1").isSome)) = some true := by
  decide


theorem batchStep_inv (tid : String) (files : List String) (s s2 : BatchState)
    (h : BatchStep tid s s2) (hinv : batchInv files s) : batchInv files s2 := by
  obtain ⟨hsum, hexcl⟩ := hinv
  cases h with
  | loop =>
      cases hr : s.running with
      | none =>
          simp only [batchLoopStep, hr]
          exact ⟨hsum, hexcl⟩
      | some l =>
          cases l with
          | nil =>
              simp only [batchLoopStep, hr]
              refine ⟨?_, Or.inl rfl⟩
              simpa [batchPending, hr] using hsum
          | cons f rest =>
              have hparked : s.parked = none := by
                cases hexcl with
                | inl hx => rw [hx] at hr; exact Option.noConfusion hr
                | inr hx => exact hx
              by_cases hp : s.tracker.isPaused = true
              · simp only [batchLoopStep, hr, waitIfPaused, hp, Bool.not_true,
                  Bool.false_eq_true, if_false]
                refine ⟨?_, Or.inl rfl⟩
                simpa [batchPending, hr, hparked] using hsum
              · rw [Bool.not_eq_true] at hp
                simp only [batchLoopStep, hr, waitIfPaused, hp, Bool.not_false,
                  if_true]
                refine ⟨?_, Or.inr hparked⟩
                rw [← hsum]
                simp [batchPending, hr, hparked]
  | extPause =>
      exact ⟨by simpa [batchPending] using hsum, hexcl⟩
  | extResume =>
      cases hpk : s.parked with
      | none =>
          refine ⟨?_, Or.inr rfl⟩
          simpa [batchPending, hpk] using hsum
      | some l =>
          have hrun : s.running = none := by
            cases hexcl with
            | inl hx => exact hx
            | inr hx => rw [hx] at hpk; exact Option.noConfusion hpk
          refine ⟨?_, Or.inr rfl⟩
          simpa [batchPending, hpk, hrun] using hsum

theorem batchReaches_inv (tid : String) (files : List String)
    (s s2 : BatchState) (h : BatchReaches tid s s2) (hinv : batchInv files s) :
    batchInv files s2 := by
  induction h with
  | refl => exact hinv
  | tail hsteps hstep ih => exact batchStep_inv tid files _ _ hstep ih

/-- C9: `pause()` is an idempotent global flag; `waitIfPaused` returns
    immediately when not paused and otherwise parks the caller on the topic's
    resolver queue; `resume()` clears the flag and drains every queue; from a
    paused state no step of the batch machine advances the processed list (a
    suspended loop parks instead of processing); and along every interleaving
    of loop, pause and resume steps the processed files stay an initial
    segment of the batch, so no file is processed twice. -/
theorem claim9_pause_batch_semantics :
    (∀ t, pause (pause t) = pause t) ∧
    (∀ (t : TrackerState) (topicId : String), t.isPaused = false →
      waitIfPaused t topicId = (.immediate, t)) ∧
    (∀ (t : TrackerState) (topicId : String), t.isPaused = true →
      (waitIfPaused t topicId).1 = .suspended ∧
      alistLookup (waitIfPaused t topicId).2.pauseResolvers topicId =
        some ((alistLookup t.pauseResolvers topicId).getD 0 + 1)) ∧
    (∀ t : TrackerState, t.isPaused = true →
      (resume t).isPaused = false ∧ (resume t).pauseResolvers = []) ∧
    (∀ (tid : String) (s s2 : BatchState), s.tracker.isPaused = true →
      BatchStep tid s s2 → s2.processed = s.processed) ∧
    (∀ (tid : String) (t0 : TrackerState) (files : List String)
      (s2 : BatchState), BatchReaches tid (batchInit t0 files) s2 →
      (∃ rest, s2.processed ++ rest = files) ∧
      (files.Nodup → s2.processed.Nodup)) := by
  refine ⟨?_, ?_, ?_, ?_, ?_, ?_⟩
  · intro t
    by_cases hp : t.isPaused = true
    · simp [pause, hp]
    · rw [Bool.not_eq_true] at hp
      simp [pause, hp]
  · intro t topicId hp
    simp [waitIfPaused, hp]
  · intro t topicId hp
    refine ⟨?_, ?_⟩
    · simp [waitIfPaused, hp]
    · simp [waitIfPaused, hp, alistLookup_set_self]
  · intro t hp
    exact ⟨by simp [resume, hp], by simp [resume, hp]⟩
  · intro tid s s2 hp hstep
    cases hstep with
    | loop =>
        cases hr : s.running with
        | none => simp [batchLoopStep, hr]
        | some l =>
            cases l with
            | nil => simp [batchLoopStep, hr]
            | cons f rest =>
                simp [batchLoopStep, hr, waitIfPaused, hp]
    | extPause => rfl
    | extResume => rfl
  · intro tid t0 files s2 hreach
    have hinit : batchInv files (batchInit t0 files) := by
      refine ⟨?_, Or.inr rfl⟩
      simp [batchInit, batchPending]
    have hinv := batchReaches_inv tid files _ _ hreach hinit
    refine ⟨⟨batchPending s2, hinv.1⟩, fun hnd => ?_⟩
    rw [← hinv.1] at hnd
    exact List.Nodup.of_append_left hnd


/-- Witness for C9: concrete checkpoint behaviour — an unpaused wait returns
    immediately, a paused wait suspends, resume drains a nonempty queue, a
    paused batch makes no progress at its checkpoint, and an initial batch
    state is an initial segment of its file list. -/
theorem claim9_pause_batch_semantics_witness :
    waitIfPaused { isPaused := false, pauseResolvers := [] } "t1" =
      (.immediate, { isPaused := false, pauseResolvers := [] }) ∧
    (waitIfPaused { isPaused := true, pauseResolvers := [] } "t1").1 =
      .suspended ∧
    (resume { isPaused := true, pauseResolvers := [("t1", 2)] }).pauseResolvers
      = [] ∧
    (batchLoopStep "t1" (batchInit { isPaused := true, pauseResolvers := [] }
      ["a"])).processed =
      (batchInit { isPaused := true, pauseResolvers := [] } ["a"]).processed ∧
    (∃ rest, (batchInit { isPaused := false, pauseResolvers := [] }
      ["a", "b"]).processed ++ rest = ["a", "b"]) := by
  have h := claim9_pause_batch_semantics
  refine ⟨h.2.1 _ "t1" rfl, (h.2.2.1 _ "t1" rfl).1, (h.2.2.2.1 _ rfl).2,
    ?_, ?_⟩
  · exact h.2.2.2.2.1 "t1" _ _ rfl (BatchStep.loop _)
  · exact (h.2.2.2.2.2 "t1" { isPaused := false, pauseResolvers := [] }
      ["a", "b"] _ Relation.ReflTransGen.refl).1


/-- C10: every mutating topic operation consults only the local topics index.
    Called with an id absent from the local index — in particular one that
    exists only in the common registry — each operation fails with a
    "Topic not found" error (not a read-only error); `createTopic`'s duplicate
    check passes whenever no LOCAL topic carries the name, whatever the common
    registry holds (the common state is not even an input of the check); and
    no such operation ever changes the common registry's topics, documents or
    path. -/
theorem claim10_mutations_local_only :
    (∀ (s : TMState) (tid : String),
      alistLookup s.topicsIndex.topics tid = none →
      ∀ (nn : Option String) (nd : Option (Option String))
        (jobs : List IngestJob) (resolve : String → ResolvedPath)
        (fp : String) (vs : VSOutcome) (now : Nat),
      updateTopic s tid nn nd now = .error ("Topic not found: " ++ tid) ∧
      addDocuments s tid jobs resolve now =
        .error ("Topic not found: " ++ tid) ∧
      removeDocumentByFilePath s tid fp vs resolve now =
        (.threw ("Topic not found: " ++ tid), s, []) ∧
      deleteTopic s tid now = (.error ("Topic not found: " ++ tid), []) ∧
      deleteTopicVectorStore s tid =
        (.error ("Topic not found: " ++ tid), [])) ∧
    (∀ (s : TMState) (name : String) (desc : Option String) (newId : String)
      (now : Nat),
      (s.topicsIndex.topics.any (fun kv =>
        strLower kv.2.name == strLower name)) = false →
      ∃ t s2, createTopic s name desc newId now = .ok (t, s2)) ∧
    (∀ (s : TMState) (name : String) (desc : Option String)
      (newId : String) (now : Nat) (t : Topic) (s2 : TMState),
      createTopic s name desc newId now = .ok (t, s2) →
      commonUnchanged s s2) ∧
    (∀ (s : TMState) (tid : String) (nn : Option String)
      (nd : Option (Option String)) (now : Nat) (t : Topic) (s2 : TMState),
      updateTopic s tid nn nd now = .ok (t, s2) → commonUnchanged s s2) ∧
    (∀ (s : TMState) (tid : String) (jobs : List IngestJob)
      (resolve : String → ResolvedPath) (now : Nat) (s2 : TMState),
      addDocuments s tid jobs resolve now = .ok s2 → commonUnchanged s s2) ∧
    (∀ (s : TMState) (tid fp : String) (vs : VSOutcome)
      (resolve : String → ResolvedPath) (now : Nat),
      commonUnchanged s (removeDocumentByFilePath s tid fp vs resolve now).2.1) ∧
    (∀ (s : TMState) (tid : String) (now : Nat) (s2 : TMState),
      (deleteTopic s tid now).1 = .ok s2 → commonUnchanged s s2) ∧
    (∀ (s : TMState) (tid : String) (s2 : TMState),
      (deleteTopicVectorStore s tid).1 = .ok s2 → commonUnchanged s s2) := by
  refine ⟨?_, ?_, ?_, ?_, ?_, ?_, ?_, ?_⟩
  · intro s tid h nn nd jobs resolve fp vs now
    refine ⟨?_, ?_, ?_, ?_, ?_⟩
    · simp [updateTopic, h]
    · simp [addDocuments, h]
    · simp [removeDocumentByFilePath, h]
    · simp [deleteTopic, h]
    · simp [deleteTopicVectorStore, h]
  · intro s name desc newId now hcol
    have hok : createTopic s name desc newId now =
        .ok ({ id := newId, name := name, description := desc, createdAt := now, updatedAt := now, documentCount := 0, source := none },
          { s with topicsIndex := { s.topicsIndex with topics := alistSet s.topicsIndex.topics newId { id := newId, name := name, description := desc, createdAt := now, updatedAt := now, documentCount := 0, source := none }, lastUpdated := now }, topicDocuments := alistSet s.topicDocuments newId [] }) := by
      simp [createTopic, hcol]
    exact ⟨_, _, hok⟩
  · intro s name desc newId now t s2 h2
    unfold createTopic at h2
    split at h2
    · exact Except.noConfusion h2
    · rw [Except.ok.injEq, Prod.mk.injEq] at h2
      rw [← h2.2]
      exact ⟨rfl, rfl, rfl⟩
  · intro s tid nn nd now t s2 h2
    cases hl : alistLookup s.topicsIndex.topics tid with
    | none => simp [updateTopic, hl] at h2
    | some topic =>
        simp only [updateTopic, hl] at h2
        split at h2
        · exact Except.noConfusion h2
        · rw [Except.ok.injEq, Prod.mk.injEq] at h2
          rw [← h2.2]
          exact ⟨rfl, rfl, rfl⟩
  · intro s tid jobs resolve now s2 h2
    cases hl : alistLookup s.topicsIndex.topics tid with
    | none => simp [addDocuments, hl] at h2
    | some topic =>
        simp only [addDocuments, hl, Except.ok.injEq] at h2
        rw [← h2]
        exact ⟨rfl, rfl, rfl⟩
  · intro s tid fp vs resolve now
    cases hl : alistLookup s.topicsIndex.topics tid with
    | none =>
        simp only [removeDocumentByFilePath, hl]
        exact ⟨rfl, rfl, rfl⟩
    | some topic =>
        cases hd : alistLookup s.topicDocuments tid with
        | none =>
            simp only [removeDocumentByFilePath, hl, hd]
            exact ⟨rfl, rfl, rfl⟩
        | some docs =>
            cases hf : findDocumentByFilePath docs fp with
            | none =>
                simp only [removeDocumentByFilePath, hl, hd, hf]
                exact ⟨rfl, rfl, rfl⟩
            | some doc =>
                cases vs with
                | getThrew e =>
                    simp only [removeDocumentByFilePath, hl, hd, hf]
                    exact ⟨rfl, rfl, rfl⟩
                | noStore =>
                    simp only [removeDocumentByFilePath, hl, hd, hf,
                      removeDocumentFinish]
                    exact ⟨rfl, rfl, rfl⟩
                | store ok =>
                    simp only [removeDocumentByFilePath, hl, hd, hf,
                      removeDocumentFinish]
                    exact ⟨rfl, rfl, rfl⟩
  · intro s tid now s2 h2
    cases hl : alistLookup s.topicsIndex.topics tid with
    | none => simp [deleteTopic, hl] at h2
    | some topic =>
        simp only [deleteTopic, hl, Except.ok.injEq] at h2
        rw [← h2]
        exact ⟨rfl, rfl, rfl⟩
  · intro s tid s2 h2
    cases hl : alistLookup s.topicsIndex.topics tid with
    | none => simp [deleteTopicVectorStore, hl] at h2
    | some topic =>
        simp only [deleteTopicVectorStore, hl, Except.ok.injEq] at h2
        rw [← h2]
        exact ⟨rfl, rfl, rfl⟩

/-- Witness for C10: on a state whose common registry holds topic c1, every
    mutating operation invoked with "c1" answers "Topic not found", and a
    topic named like the common topic can still be created locally. -/
theorem claim10_mutations_local_only_witness :
    deleteTopic stateCommon "c1" 1 =
      (.error ("Topic not found: " ++ "c1"), []) ∧
    (∃ t s2, createTopic stateCommon "shared" none "t9" 1 = .ok (t, s2)) := by
  have h := claim10_mutations_local_only
  refine ⟨(h.1 stateCommon "c1" (by decide) none none [] resolveConst "f"
    (.noStore) 1).2.2.2.1, h.2.1 stateCommon "shared" none "t9" 1 (by decide)⟩

end LocalRag
